import Mathlib

/-!
Formal model of the NoticeHub notification-lifecycle core.

This file shallowly embeds the data model (`src/data/models.py`), the CRUD
layer (`src/data/crud.py`) and the extraction-voting helpers (`main.py`) of
the repository, and proves properties of the embedded operations.

Conventions of the embedding:
* database tables are lists of records, kept in insertion order; `.first()`
  queries are `List.find?`, deletes are `List.filter`;
* timestamps are rationals (seconds since an arbitrary epoch); the code's
  naive-vs-aware timezone normalisation (`replace(tzinfo=utc)`) is the
  identity in this model, since every timestamp already denotes UTC;
* Python exceptions are `Except` / `Option` results;
* the nondeterministic LLM is an oracle `Nat → VoteRes` giving the result of
  the n-th completion call, and `random.uniform(30, 480)` is an explicit
  rational parameter constrained to `[30, 480]`.
-/

namespace NoticeHub

/-! ## Python string primitives -/

/-- Python `str.lower` restricted to the alphabet the keyword tables use:
ASCII letters are lowered, and `Ö` (the only non-ASCII letter appearing in
the tables, in `störung`) maps to `ö`; every other character is fixed. -/
def pyLowerChar (c : Char) : Char :=
  if 'A' ≤ c ∧ c ≤ 'Z' then Char.ofNat (c.toNat + 32)
  else if c = 'Ö' then 'ö'
  else c

/-- `str.lower` on a whole string. -/
def pyLower (s : String) : String :=
  ⟨s.data.map pyLowerChar⟩

/-- Python whitespace characters recognised by `str.strip()`. -/
def isPySpace (c : Char) : Bool :=
  c = ' ' ∨ c = '\t' ∨ c = '\n' ∨ c = '\r' ∨ c = '\x0b' ∨ c = '\x0c'

/-- `str.strip()`: drop leading and trailing whitespace. -/
def pyStrip (s : String) : String :=
  ⟨(s.data.dropWhile isPySpace).reverse.dropWhile isPySpace |>.reverse⟩

/-- Whether `n` is a prefix of `h` (character lists). -/
def isPrefixL : List Char → List Char → Bool
  | [], _ => true
  | _ :: _, [] => false
  | a :: as, b :: bs => a == b && isPrefixL as bs

/-- Whether `n` occurs as a contiguous substring of `h` (character lists);
Python's `n in h`. -/
def containsL (n : List Char) : List Char → Bool
  | [] => isPrefixL n []
  | c :: t => isPrefixL n (c :: t) || containsL n t

/-- Python's substring test `needle in hay`. -/
def pyContains (needle hay : String) : Bool :=
  containsL needle.data hay.data

/-- Python `round(x, 2)` in the model: round to two decimal places.
(The claims compare the code's rounded value with the spec's rounded value,
so one rounding function serves both sides.) -/
def round2 (q : ℚ) : ℚ :=
  (round (100 * q) : ℤ) / 100

/-! ## Enums (`src/data/models.py`) -/

/-- `ProcessingStatusEnum`. -/
inductive ProcessingStatusEnum where
  | UNPROCESSED | PENDING_LLM | PROCESSING_LLM | COMPLETED | ERROR
  | PENDING_VALIDATION | MANUAL_REVIEW
  deriving DecidableEq, Repr

/-- `NotificationTypeEnum`.  Note that the enum has **no** `RESOLVED`
member; only `NotificationStatusEnum` has one. -/
inductive NotificationTypeEnum where
  | MAINTENANCE | OUTAGE | UPDATE | ALERT | INFO | SECURITY | UNKNOWN
  deriving DecidableEq, Repr

/-- `SeverityEnum`. -/
inductive SeverityEnum where
  | LOW | MEDIUM | HIGH | CRITICAL | INFO | UNKNOWN
  deriving DecidableEq, Repr

/-- `NotificationStatusEnum`. -/
inductive NotificationStatusEnum where
  | NEW | TRIAGED | ACTION_PENDING | IN_PROGRESS | RESOLVED | ARCHIVED
  | ERROR_PROCESSING | PENDING_MANUAL_REVIEW | PENDING_VALIDATION
  deriving DecidableEq, Repr

/-- The string value of each `NotificationTypeEnum` member. -/
def NotificationTypeEnum.value : NotificationTypeEnum → String
  | .MAINTENANCE => "maintenance"
  | .OUTAGE => "outage"
  | .UPDATE => "update"
  | .ALERT => "alert"
  | .INFO => "info"
  | .SECURITY => "security"
  | .UNKNOWN => "unknown"

/-- `NotificationTypeEnum(value)`: look a member up by its string value
(raises `ValueError`, i.e. `none`, if no member has that value). -/
def notificationTypeOfValue (s : String) : Option NotificationTypeEnum :=
  [NotificationTypeEnum.MAINTENANCE, .OUTAGE, .UPDATE, .ALERT, .INFO,
   .SECURITY, .UNKNOWN].find? (fun t => t.value == s)

/-- Attribute access `NotificationTypeEnum.<NAME>` by member name: `none`
models Python's `AttributeError` for a name that is not a member.  The
member names are exactly those declared in `src/data/models.py`. -/
def notificationTypeMember (name : String) : Option NotificationTypeEnum :=
  if name = "MAINTENANCE" then some .MAINTENANCE
  else if name = "OUTAGE" then some .OUTAGE
  else if name = "UPDATE" then some .UPDATE
  else if name = "ALERT" then some .ALERT
  else if name = "INFO" then some .INFO
  else if name = "SECURITY" then some .SECURITY
  else if name = "UNKNOWN" then some .UNKNOWN
  else none

/-! ## `parse_llm_notification_type` (`main.py`) -/

/-- A Python exception escaping a helper. -/
inductive PyError where
  | attributeError (msg : String)
  deriving DecidableEq, Repr

deriving instance DecidableEq for Except

/-- The keyword fallback table of `parse_llm_notification_type`, in source
order.  Its last entry reads `NotificationTypeEnum.RESOLVED`; the member
lookup is taken as an argument so that the caller models the
`AttributeError` raised when the dict literal is evaluated. -/
def notificationTypeKeywordTable (resolvedMember : NotificationTypeEnum) :
    List (String × NotificationTypeEnum) :=
  [("maintenance", .MAINTENANCE), ("outage", .OUTAGE), ("incident", .OUTAGE),
   ("störung", .OUTAGE), ("alert", .ALERT), ("update", .INFO),
   ("info", .INFO), ("informational", .INFO), ("resolved", resolvedMember)]

/-- First table entry whose keyword occurs in `s`, else `UNKNOWN`. -/
def keywordLookup (table : List (String × NotificationTypeEnum)) (s : String) :
    NotificationTypeEnum :=
  match table.find? (fun kv => pyContains kv.1 s) with
  | some kv => kv.2
  | none => .UNKNOWN

/-- `parse_llm_notification_type` (`main.py:955`).  `none` input models a
`None` argument.  An `AttributeError` result models the crash that occurs
when the fallback dict literal evaluates `NotificationTypeEnum.RESOLVED`,
a member the enum does not have. -/
def parse_llm_notification_type (type_str : Option String) :
    Except PyError NotificationTypeEnum :=
  match type_str with
  | none => .ok .UNKNOWN
  | some s =>
    if s = "" ∨ pyStrip s = "" then .ok .UNKNOWN
    else
      let processed := pyStrip (pyLower s)
      match notificationTypeOfValue processed with
      | some t => .ok t
      | none =>
        match notificationTypeMember "RESOLVED" with
        | none => .error (.attributeError "RESOLVED")
        | some r => .ok (keywordLookup (notificationTypeKeywordTable r) processed)

/-! ## Extraction voting engine (`main.py`)

An LLM response is a JSON dict with up to six extraction keys plus an
optional `error` key.  The outer `Option` of a field records whether the key
is present at all; the inner `Option` records a JSON `null` value. -/

/-- One raw result of `llm_client.analyze_text`. -/
structure VoteRes where
  error : Option String := none
  extracted_service_name : Option (Option String) := none
  event_start_time : Option (Option String) := none
  event_end_time : Option (Option String) := none
  notification_type : Option (Option String) := none
  event_summary : Option (Option String) := none
  severity_level : Option (Option String) := none
  deriving DecidableEq, Repr

/-- The `{}` placeholder `analyze_with_retry` starts from. -/
def emptyVoteRes : VoteRes := {}

/-- Python truthiness of `r.get("error")`: a present, non-empty string. -/
def truthyError (r : VoteRes) : Bool :=
  match r.error with
  | some s => s ≠ ""
  | none => false

/-- Allowed `notification_type` strings in `validate_llm_extraction_response`. -/
def allowedTypeValues : List String :=
  ["maintenance", "outage", "update", "alert", "info", "security", "unknown"]

/-- Allowed `severity_level` strings in `validate_llm_extraction_response`. -/
def allowedSeverityValues : List String :=
  ["low", "medium", "high", "critical", "info", "unknown"]

/-- The enum-field check of `validate_llm_extraction_response`: an absent
key or a `null` value passes (`None` is in the allowed set); a string value
is lowered and must be in the allowed set (`("" or "")` stays `""`, which is
not allowed). -/
def enumFieldOk (allowed : List String) : Option (Option String) → Bool
  | none => true
  | some none => true
  | some (some s) => allowed.contains (pyLower s)

/-- `validate_llm_extraction_response` (`main.py:1007`): the six required
keys are present and the two enum fields hold allowed values. -/
def validate_llm_extraction_response (r : VoteRes) : Bool :=
  r.extracted_service_name.isSome && r.event_start_time.isSome &&
  r.event_end_time.isSome && r.notification_type.isSome &&
  r.event_summary.isSome && r.severity_level.isSome &&
  enumFieldOk allowedTypeValues r.notification_type &&
  enumFieldOk allowedSeverityValues r.severity_level

/-- The acceptance test used by both `analyze_with_retry` and the voting
filter: `not r.get("error") and validate_llm_extraction_response(r)`. -/
def isVoteValid (r : VoteRes) : Bool :=
  !truthyError r && validate_llm_extraction_response r

/-- `r.get("extracted_service_name")`: `none` for an absent key or a `null`
value. -/
def serviceNameOf (r : VoteRes) : Option String :=
  r.extracted_service_name.bind id

/-- The retry loop of `analyze_with_retry`: run the oracle up to
`max_attempts` times, returning the first accepted response, else the last
response (`last` carries the response variable, initially `{}`).  The
second component counts completion calls; `idx` is the index of the next
oracle call. -/
def retryLoop (oracle : Nat → VoteRes) (idx : Nat) :
    Nat → VoteRes → VoteRes × Nat
  | 0, last => (last, 0)
  | n + 1, _ =>
    let r := oracle idx
    if isVoteValid r then (r, 1)
    else
      let rc := retryLoop oracle (idx + 1) n r
      (rc.1, rc.2 + 1)

/-- `analyze_with_retry` (`main.py:1048`), with its completion calls fed by
`oracle` starting at call index `idx`.  The default `max_attempts` is 2. -/
def analyze_with_retry (oracle : Nat → VoteRes) (idx max_attempts : Nat) :
    VoteRes × Nat :=
  retryLoop oracle idx max_attempts emptyVoteRes

/-- The vote-gathering loop of `analyze_with_voting`: `votes` sequential
calls to `analyze_with_retry`, threading the oracle call index.  Returns
the collected results and the total completion-call count. -/
def votingCollect (oracle : Nat → VoteRes) (max_attempts : Nat) :
    Nat → Nat → List VoteRes × Nat
  | _, 0 => ([], 0)
  | idx, n + 1 =>
    let rc := analyze_with_retry oracle idx max_attempts
    let rest := votingCollect oracle max_attempts (idx + rc.2) n
    (rc.1 :: rest.1, rc.2 + rest.2)

/-- One `counts[name] = counts.get(name, 0) + 1` step on the insertion-
ordered dict: bump an existing key in place, else append it with count 1. -/
def bumpCount (acc : List (Option String × Nat)) (k : Option String) :
    List (Option String × Nat) :=
  if acc.any (fun p => p.1 == k) then
    acc.map (fun p => if p.1 == k then (p.1, p.2 + 1) else p)
  else acc ++ [(k, 1)]

/-- The `counts` dict of `analyze_with_voting` as an insertion-ordered
association list. -/
def countsOf (names : List (Option String)) : List (Option String × Nat) :=
  names.foldl bumpCount []

/-- The scan of Python's `max(counts, key=counts.get)`: keep the current
best key, replacing it only on a strictly greater value (so the first key
attaining the maximum wins). -/
def pyMaxGo (bk : Option String) (bv : Nat) :
    List (Option String × Nat) → Option String
  | [] => bk
  | p :: rest => if bv < p.2 then pyMaxGo p.1 p.2 rest else pyMaxGo bk bv rest

/-- The reduction step of `analyze_with_voting` (`main.py:1091`): filter to
accepted results, majority-vote on `extracted_service_name`, return the
first accepted result carrying the majority name; with no accepted result,
return the first raw result.  `none` is only produced for an empty input
list (Python returns `{}` there). -/
def voteReduce (vote_results : List VoteRes) : Option VoteRes :=
  let valid := vote_results.filter isVoteValid
  if valid.isEmpty then vote_results.head?
  else
    match countsOf (valid.map serviceNameOf) with
    | [] => none
    | p :: rest =>
      let majority := pyMaxGo p.1 p.2 rest
      match valid.find? (fun r => serviceNameOf r == majority) with
      | some r => some r
      | none => valid.head?

/-- `analyze_with_voting` (`main.py:1071`) with default parameters
`votes = 3` and retry `max_attempts = 2`: gather the votes, then reduce. -/
def analyze_with_voting (oracle : Nat → VoteRes) (idx : Nat) :
    Option VoteRes × Nat :=
  let rc := votingCollect oracle 2 idx 3
  (voteReduce rc.1, rc.2)

/-! ## Data model (`src/data/models.py`)

Tables are lists of records in insertion order.  Timestamps are rationals
(UTC seconds).  The `DowntimeEvent` table class itself is not part of the
provided sources; its columns are taken from its uses in `src/data/crud.py`
and from `DowntimeEventSchema` in `src/data/schemas.py`. -/

/-- A `raw_emails` row. -/
structure RawEmailRec where
  id : Nat
  original_email_id_hash : String
  subject : Option String
  sender : Option String
  received_at : ℚ
  body_text : Option String
  body_html : Option String
  has_html_body : Bool
  deriving DecidableEq, Repr

/-- A `llm_data` row. -/
structure LLMDataRec where
  id : Nat
  processing_status : ProcessingStatusEnum
  error_message : Option String
  raw_llm_response : Option String
  extracted_service_name : Option String
  event_start_time : Option ℚ
  event_end_time : Option ℚ
  notification_type : Option NotificationTypeEnum
  severity : Option SeverityEnum
  llm_summary : Option String
  deriving DecidableEq, Repr

/-- A `notifications` row. -/
structure NotificationRec where
  id : Nat
  title : Option String
  status : NotificationStatusEnum
  raw_email_id : Nat
  llm_data_id : Nat
  last_checked_at : ℚ
  deriving DecidableEq, Repr

/-- An `external_services` row. -/
structure ExternalServiceRec where
  id : Nat
  service_name : String
  provider : Option String
  description : Option String
  deriving DecidableEq, Repr

/-- An `internal_systems` row. -/
structure InternalSystemRec where
  id : Nat
  system_name : String
  responsible_contact : Option String
  description : Option String
  deriving DecidableEq, Repr

/-- A `dependencies` row. -/
structure DependencyRec where
  id : Nat
  internal_system_id : Nat
  external_service_id : Nat
  dependency_description : Option String
  deriving DecidableEq, Repr

/-- A `notification_impacts` row. -/
structure NotificationImpactRec where
  id : Nat
  notification_id : Nat
  internal_system_id : Nat
  deriving DecidableEq, Repr

/-- A `downtime_events` row (columns per `crud.py` and
`DowntimeEventSchema`). -/
structure DowntimeEventRec where
  id : Nat
  external_service_id : Nat
  start_notification_id : Nat
  start_time : ℚ
  end_notification_id : Option Nat
  end_time : Option ℚ
  severity : Option SeverityEnum
  summary : Option String
  deriving DecidableEq, Repr

/-- The relational store: one list per table plus autoincrement counters
for the tables the modelled operations insert into. -/
structure Store where
  raw_emails : List RawEmailRec
  llm_data : List LLMDataRec
  notifications : List NotificationRec
  external_services : List ExternalServiceRec
  internal_systems : List InternalSystemRec
  dependencies : List DependencyRec
  impacts : List NotificationImpactRec
  downtime_events : List DowntimeEventRec
  next_raw_email_id : Nat
  next_llm_data_id : Nat
  next_notification_id : Nat
  next_dependency_id : Nat
  deriving DecidableEq, Repr

/-! ## Status mapping (`src/data/crud.py`) -/

/-- `_map_llm_status_to_notification_status` (`crud.py:253`). -/
def _map_llm_status_to_notification_status
    (llm_processing_status : ProcessingStatusEnum) : NotificationStatusEnum :=
  if llm_processing_status = .ERROR then .ERROR_PROCESSING
  else if llm_processing_status = .MANUAL_REVIEW then .PENDING_MANUAL_REVIEW
  else if llm_processing_status = .PENDING_VALIDATION then .PENDING_VALIDATION
  else .NEW

/-- The resolution keyword list of `_map_notification_type_to_status`
(`"resolved"` appears twice in the source list). -/
def resolutionKeywords : List String :=
  ["resolved", "fixed", "resolved", "restored", "completed", "normal"]

/-- Truthiness-plus-keyword-scan on the summary:
`llm_summary and any(keyword in llm_summary.lower() for keyword in ...)`. -/
def summaryIndicatesResolution (llm_summary : Option String) : Bool :=
  match llm_summary with
  | some s => s ≠ "" && resolutionKeywords.any (fun k => pyContains k (pyLower s))
  | none => false

/-- `_map_notification_type_to_status` (`crud.py:266`): map the extracted
notification type (and, for update/info, the summary text) to a
notification status. -/
def _map_notification_type_to_status
    (notification_type : Option NotificationTypeEnum)
    (llm_summary : Option String) : NotificationStatusEnum :=
  match notification_type with
  | none => .NEW
  | some t =>
    if t = .OUTAGE then .IN_PROGRESS
    else if t = .MAINTENANCE then .ACTION_PENDING
    else if t = .ALERT then .IN_PROGRESS
    else if t = .SECURITY then .ACTION_PENDING
    else if (t = .UPDATE ∨ t = .INFO) ∧
        summaryIndicatesResolution llm_summary then .RESOLVED
    else .NEW

/-- `update_llm_data_extracted_fields` (`crud.py:298`): overwrite the
extraction fields, clear the error message, and recompute the parent
notification's status (explicit status, else type mapping on `completed`,
else processing-status mapping).  Returns `none` when the `LLMData` id does
not resolve; the success path is modelled (no storage failure). -/
def update_llm_data_extracted_fields (s : Store) (llm_data_id : Nat)
    (extracted_service_name : Option String)
    (event_start_time event_end_time : Option ℚ)
    (notification_type : Option NotificationTypeEnum)
    (severity : Option SeverityEnum)
    (llm_summary raw_llm_response : Option String)
    (processing_status : ProcessingStatusEnum)
    (notification_status : Option NotificationStatusEnum)
    (now : ℚ) : Option (LLMDataRec × Store) :=
  match s.llm_data.find? (fun l => l.id == llm_data_id) with
  | none => none
  | some l =>
    let l' : LLMDataRec :=
      { l with
        extracted_service_name := extracted_service_name
        event_start_time := event_start_time
        event_end_time := event_end_time
        notification_type := notification_type
        severity := severity
        llm_summary := llm_summary
        raw_llm_response := raw_llm_response
        processing_status := processing_status
        error_message := none }
    let newStatus : Option NotificationStatusEnum :=
      match notification_status with
      | some st => some st
      | none =>
        if processing_status = .COMPLETED then
          some (_map_notification_type_to_status notification_type llm_summary)
        else some (_map_llm_status_to_notification_status processing_status)
    let notifs :=
      match s.notifications.find? (fun n => n.llm_data_id == llm_data_id) with
      | none => s.notifications
      | some n =>
        s.notifications.map (fun m =>
          if m.id == n.id then
            { m with status := newStatus.getD m.status, last_checked_at := now }
          else m)
    some (l', { s with
      llm_data := s.llm_data.map (fun m => if m.id == l.id then l' else m)
      notifications := notifs })

/-! ## Dependencies (`crud.py:1089`) -/

/-- `create_dependency`: refuse unknown endpoints, return an existing edge
for the same pair unchanged, else insert a fresh row. -/
def create_dependency (s : Store) (internal_system_id external_service_id : Nat)
    (dependency_description : Option String) : Option DependencyRec × Store :=
  match s.internal_systems.find? (fun i => i.id == internal_system_id) with
  | none => (none, s)
  | some _ =>
    match s.external_services.find? (fun e => e.id == external_service_id) with
    | none => (none, s)
    | some _ =>
      match s.dependencies.find? (fun d =>
          d.internal_system_id == internal_system_id &&
          d.external_service_id == external_service_id) with
      | some existing => (some existing, s)
      | none =>
        let d : DependencyRec :=
          { id := s.next_dependency_id
            internal_system_id := internal_system_id
            external_service_id := external_service_id
            dependency_description := dependency_description }
        (some d, { s with
          dependencies := s.dependencies ++ [d]
          next_dependency_id := s.next_dependency_id + 1 })

/-! ## Downtime events (`crud.py:1203`) -/

/-- `close_downtime_event` (`crud.py:1225`): look the event up by id and
unconditionally overwrite its end notification and end time; `none` only
when the id does not resolve. -/
def close_downtime_event (s : Store) (event_id end_notification_id : Nat)
    (end_time : ℚ) : Option DowntimeEventRec × Store :=
  match s.downtime_events.find? (fun e => e.id == event_id) with
  | none => (none, s)
  | some e =>
    let e' := { e with
      end_notification_id := some end_notification_id
      end_time := some end_time }
    (some e', { s with
      downtime_events :=
        s.downtime_events.map (fun x => if x.id == e.id then e' else x) })

/-! ## Average downtime (`crud.py:1267`) -/

/-- The per-service accumulator of `get_average_downtime_by_service`. -/
structure SvcAgg where
  total_seconds : ℚ
  count : Nat
  ongoing_count : Nat
  has_ongoing : Bool
  deriving DecidableEq, Repr

/-- The zero aggregate a first-seen service id starts from. -/
def zeroAgg : SvcAgg := ⟨0, 0, 0, false⟩

/-- The per-event accumulator update: add `end - start` for a closed
event; add `now - start` for an open one and bump the ongoing counters. -/
def bumpAgg (now : ℚ) (e : DowntimeEventRec) (a : SvcAgg) : SvcAgg :=
  match e.end_time with
  | some t =>
    { a with
      total_seconds := a.total_seconds + (t - e.start_time)
      count := a.count + 1 }
  | none =>
    { a with
      total_seconds := a.total_seconds + (now - e.start_time)
      count := a.count + 1
      ongoing_count := a.ongoing_count + 1
      has_ongoing := true }

/-- One loop iteration of `get_average_downtime_by_service`: insert a zero
entry for a first-seen service id (dict insertion order), then apply
`bumpAgg` to the service's entry.  `start_time` is a non-null column, so
the `if event.start_time:` guard always passes; the naive-to-UTC
normalisation is the identity here. -/
def addDowntimeEvent (now : ℚ) (acc : List (Nat × SvcAgg))
    (e : DowntimeEventRec) : List (Nat × SvcAgg) :=
  let acc :=
    if acc.any (fun p => p.1 == e.external_service_id) then acc
    else acc ++ [(e.external_service_id, zeroAgg)]
  acc.map (fun p =>
    if p.1 == e.external_service_id then (p.1, bumpAgg now e p.2) else p)

/-- One row of the downtime statistics result. -/
structure DowntimeStatsRow where
  service_id : Nat
  service_name : String
  average_minutes : ℚ
  event_count : Nat
  ongoing_count : Nat
  has_ongoing : Bool
  deriving DecidableEq, Repr

/-- `get_average_downtime_by_service` (`crud.py:1267`).  `now` is
`datetime.now(utc)`; `rand` is the value drawn by `random.uniform(30, 480)`
in the demo-capping branch, passed in explicitly so the function is a
deterministic image of the code: when the uncapped average exceeds 1000
minutes the code discards it and reports `round(rand, 2)` instead. -/
def get_average_downtime_by_service (s : Store) (now rand : ℚ) :
    List DowntimeStatsRow :=
  let service_data := s.downtime_events.foldl (addDowntimeEvent now) []
  service_data.filterMap (fun p =>
    if p.2.count = 0 then none
    else
      let total_minutes := p.2.total_seconds / 60
      let avg :=
        if total_minutes / (p.2.count : ℚ) > 1000 then round2 rand
        else round2 (total_minutes / (p.2.count : ℚ))
      let name :=
        match s.external_services.find? (fun es => es.id == p.1) with
        | some es => es.service_name
        | none => "Unknown Service " ++ toString p.1
      some ⟨p.1, name, avg, p.2.count, p.2.ongoing_count, p.2.has_ongoing⟩)

/-! ## Aggregate creation (`crud.py:76`) -/

/-- Python truthiness of an optional string (`bool(x)`). -/
def pyTruthyStr : Option String → Bool
  | some s => s ≠ ""
  | none => false

/-- The SHA-256 hex digest, modelled as an injective tagging of the input
(the code only uses the digest as a dedup key, never its numeric value). -/
def sha256_hex (s : String) : String :=
  "sha256:" ++ s

/-- A SQLAlchemy session: the committed database plus the pending
(uncommitted) state the session's inserts act on. -/
structure DbSession where
  committed : Store
  pending : Store
  deriving DecidableEq, Repr

/-- `db.rollback()`: discard pending work. -/
def sessionRollback (db : DbSession) : DbSession :=
  { committed := db.committed, pending := db.committed }

/-- `create_notification` (`crud.py:76`) with failure injection: `failAt`
names the fallible database call that raises, in program order — 0 the
flush of the `RawEmail` insert, 1 the flush of the `LLMData` insert, 2 the
`commit`, 3/4/5 the three `refresh` calls, 6 the second `commit`; `none`
(or an index above 6) runs the happy path.  The exception handler performs
`db.rollback()` and returns `None`. -/
def create_notification (db : DbSession) (subject : Option String)
    (received_at : ℚ) (original_email_id_str : String)
    (sender email_body_text email_body_html : Option String)
    (now : ℚ) (failAt : Option Nat) : Option NotificationRec × DbSession :=
  let fails : Nat → Bool := fun k => failAt == some k
  let p := db.pending
  let raw : RawEmailRec :=
    { id := p.next_raw_email_id
      original_email_id_hash := sha256_hex original_email_id_str
      subject := subject
      sender := sender
      received_at := received_at
      body_text := email_body_text
      body_html := email_body_html
      has_html_body := pyTruthyStr email_body_html }
  let p1 := { p with
    raw_emails := p.raw_emails ++ [raw]
    next_raw_email_id := p.next_raw_email_id + 1 }
  if fails 0 then (none, sessionRollback db)
  else
    let llm : LLMDataRec :=
      { id := p1.next_llm_data_id
        processing_status := .UNPROCESSED
        error_message := none
        raw_llm_response := none
        extracted_service_name := none
        event_start_time := none
        event_end_time := none
        notification_type := none
        severity := none
        llm_summary := none }
    let p2 := { p1 with
      llm_data := p1.llm_data ++ [llm]
      next_llm_data_id := p1.next_llm_data_id + 1 }
    if fails 1 then (none, sessionRollback db)
    else
      let notif : NotificationRec :=
        { id := p2.next_notification_id
          title := subject
          status := .NEW
          raw_email_id := raw.id
          llm_data_id := llm.id
          last_checked_at := now }
      let p3 := { p2 with
        notifications := p2.notifications ++ [notif]
        next_notification_id := p2.next_notification_id + 1 }
      if fails 2 then (none, sessionRollback db)
      else
        let db1 : DbSession := { committed := p3, pending := p3 }
        if fails 3 || fails 4 || fails 5 || fails 6 then
          (none, sessionRollback db1)
        else (some notif, db1)

/-! ## Notification deletion (`crud.py:522`)

`delete_notification` recurses into the end notifications of downtime
events it deletes; the recursion is bounded by an explicit `fuel`
parameter (`none` models only fuel exhaustion, which the claims discharge
with concrete fuel). -/

/-- Clearing a downtime event's end reference and end time (reopening). -/
def reopenEvent (e : DowntimeEventRec) : DowntimeEventRec :=
  { e with end_notification_id := none, end_time := none }

/-- The downtime-event repairs `delete_notification` performs first: drop
every event started by the notification and reopen every remaining event
ended by it. -/
def eventRepair (s : Store) (notification_id : Nat) : Store :=
  let kept := s.downtime_events.filter
    (fun e => !(e.start_notification_id == notification_id))
  let repaired := kept.map (fun e =>
    if e.end_notification_id == some notification_id then reopenEvent e else e)
  { s with downtime_events := repaired }

/-- The final removal step of `delete_notification`: drop the
notification's impact rows, the notification itself, and its `LLMData` and
`RawEmail` rows (the explicit deletes and the ORM cascade both remove
exactly the rows with the captured ids). -/
def finalStrip (s : Store) (notification_id llm_id raw_id : Nat) : Store :=
  { s with
    impacts := s.impacts.filter (fun i => !(i.notification_id == notification_id))
    notifications := s.notifications.filter (fun n => !(n.id == notification_id))
    llm_data := s.llm_data.filter (fun l => !(l.id == llm_id))
    raw_emails := s.raw_emails.filter (fun r => !(r.id == raw_id)) }

/-- The `for end_id in end_notifications_to_delete` loop shape of
`delete_notification`: run `deleteFn` on each listed notification id other
than `skip_id`, threading the store. -/
def runEndDeletes (deleteFn : Store → Nat → Option (Bool × Store))
    (skip_id : Nat) : Store → List Nat → Option Store
  | st, [] => some st
  | st, eid :: rest =>
    if eid == skip_id then runEndDeletes deleteFn skip_id st rest
    else
      match deleteFn st eid with
      | none => none
      | some bs => runEndDeletes deleteFn skip_id bs.2 rest

/-- `delete_notification` (`crud.py:522`): repair downtime events (delete
events started by the notification, reopen events only ended by it), then,
if the notification exists, recursively delete the end notifications of
the deleted events (skipping the notification itself), delete its impact
rows, and delete the notification with its two sub-records.  Returns the
function's boolean result and the resulting store; the recursion carries
explicit fuel and `none` models only fuel exhaustion. -/
def delete_notification (fuel : Nat) (s : Store) (notification_id : Nat) :
    Option (Bool × Store) :=
  match fuel with
  | 0 => none
  | fuel' + 1 =>
    let referenced_as_start :=
      s.downtime_events.filter
        (fun e => e.start_notification_id == notification_id)
    let end_notifications_to_delete :=
      referenced_as_start.filterMap (fun e => e.end_notification_id)
    let s1 := eventRepair s notification_id
    match s1.notifications.find? (fun n => n.id == notification_id) with
    | none => some (false, s1)
    | some notif =>
      match runEndDeletes (fun st eid => delete_notification fuel' st eid)
          notification_id s1 end_notifications_to_delete with
      | none => none
      | some s2 =>
        some (true, finalStrip s2 notification_id notif.llm_data_id
          notif.raw_email_id)

/-- The end-notification deletion loop at a given fuel level. -/
def delete_end_notifications (fuel : Nat) (st : Store) (skip_id : Nat)
    (ids : List Nat) : Option Store :=
  runEndDeletes (fun st' eid => delete_notification fuel st' eid)
    skip_id st ids

/-! ## Consistency check (`crud.py:140`) -/

/-- The stats dictionary of `check_and_fix_data_consistency`. -/
structure ConsistencyStats where
  orphaned_llm_data : Nat
  orphaned_raw_email : Nat
  incomplete_notifications : Nat
  orphaned_impacts : Nat
  fixed_issues : Nat
  errors : Nat
  deriving DecidableEq, Repr

/-- The deletion loop of step 3 of the consistency check: delete each
incomplete notification through the full `delete_notification` path. -/
def check_delete_all (fuel : Nat) : Store → List Nat → Option Store
  | st, [] => some st
  | st, nid :: rest =>
    match delete_notification fuel st nid with
    | none => none
    | some bs => check_delete_all fuel bs.2 rest

/-- `check_and_fix_data_consistency` (`crud.py:140`): delete orphaned
`LLMData` rows, then orphaned `RawEmail` rows, then notifications whose
`LLMData` or `RawEmail` is missing (via `delete_notification`), then
impacts whose notification is gone, reporting per-category counts (on the
exception-free path `errors = 0`). -/
def check_and_fix_data_consistency (fuel : Nat) (s : Store) :
    Option (ConsistencyStats × Store) :=
  let orphaned_llm := s.llm_data.filter
    (fun l => !(s.notifications.any (fun n => n.llm_data_id == l.id)))
  let kept_llm := s.llm_data.filter
    (fun l => s.notifications.any (fun n => n.llm_data_id == l.id))
  let s1 := { s with llm_data := kept_llm }
  let orphaned_raw := s1.raw_emails.filter
    (fun r => !(s1.notifications.any (fun n => n.raw_email_id == r.id)))
  let kept_raw := s1.raw_emails.filter
    (fun r => s1.notifications.any (fun n => n.raw_email_id == r.id))
  let s2 := { s1 with raw_emails := kept_raw }
  let missing_llm := s2.notifications.filter
    (fun n => !(s2.llm_data.any (fun l => l.id == n.llm_data_id)))
  let missing_raw := s2.notifications.filter
    (fun n => !(missing_llm.any (fun m => m == n)) &&
      !(s2.raw_emails.any (fun r => r.id == n.raw_email_id)))
  let incomplete := missing_llm ++ missing_raw
  match check_delete_all fuel s2 (incomplete.map (fun n => n.id)) with
  | none => none
  | some s3 =>
    let orphaned_imp := s3.impacts.filter
      (fun i => !(s3.notifications.any (fun n => n.id == i.notification_id)))
    let kept_imp := s3.impacts.filter
      (fun i => s3.notifications.any (fun n => n.id == i.notification_id))
    let s4 := { s3 with impacts := kept_imp }
    some ({ orphaned_llm_data := orphaned_llm.length
            orphaned_raw_email := orphaned_raw.length
            incomplete_notifications := incomplete.length
            orphaned_impacts := orphaned_imp.length
            fixed_issues := orphaned_llm.length + orphaned_raw.length +
              incomplete.length + orphaned_imp.length
            errors := 0 }, s4)

/-! ## Specification-side definitions

These definitions are written from the specification's words (not from the
code) and are compared with the embedded code in the refinement-style
theorems below. -/

/-- Spec side: "the summary contains one of the keywords resolved, fixed,
restored, completed, normal" (matched case-insensitively, as the code scans
the lowered summary text; an absent summary contains nothing). -/
def summaryHasResolutionKeyword (summary : Option String) : Bool :=
  match summary with
  | some s =>
    ["resolved", "fixed", "restored", "completed", "normal"].any
      (fun k => pyContains k (pyLower s))
  | none => false

/-- Spec side: the status precedence of `ApplyExtraction` — an explicit
caller-supplied status wins; else, with processing `completed`, the
type-based mapping (outage→in_progress, maintenance→action_pending,
alert→in_progress, security→action_pending; update/info→resolved on a
resolution keyword, else new; missing type→new); else the
processing-status mapping. -/
def specNotificationStatus (explicit : Option NotificationStatusEnum)
    (processing : ProcessingStatusEnum)
    (ntype : Option NotificationTypeEnum) (summary : Option String) :
    NotificationStatusEnum :=
  match explicit with
  | some st => st
  | none =>
    if processing = .COMPLETED then
      match ntype with
      | some .OUTAGE => .IN_PROGRESS
      | some .MAINTENANCE => .ACTION_PENDING
      | some .ALERT => .IN_PROGRESS
      | some .SECURITY => .ACTION_PENDING
      | some .UPDATE =>
        if summaryHasResolutionKeyword summary then .RESOLVED else .NEW
      | some .INFO =>
        if summaryHasResolutionKeyword summary then .RESOLVED else .NEW
      | some .UNKNOWN => .NEW
      | none => .NEW
    else
      match processing with
      | .ERROR => .ERROR_PROCESSING
      | .MANUAL_REVIEW => .PENDING_MANUAL_REVIEW
      | .PENDING_VALIDATION => .PENDING_VALIDATION
      | _ => .NEW

/-- Spec side: the downtime events of one service. -/
def svcEvents (s : Store) (svc : Nat) : List DowntimeEventRec :=
  s.downtime_events.filter (fun e => e.external_service_id == svc)

/-- Spec side: one event's duration in seconds — end minus start for a
closed event, now minus start for an open one. -/
def eventDuration (now : ℚ) (e : DowntimeEventRec) : ℚ :=
  match e.end_time with
  | some t => t - e.start_time
  | none => now - e.start_time

/-- Spec side: the summed durations of a list of events, in seconds. -/
def totalDuration (now : ℚ) (l : List DowntimeEventRec) : ℚ :=
  (l.map (eventDuration now)).sum

/-- Index of the first occurrence of `k` (the length of the list if `k`
does not occur); used to express "first-seen order of the name". -/
def firstIdx : List (Option String) → Option String → Nat
  | [], _ => 0
  | x :: t, k => if x == k then 0 else firstIdx t k + 1

/-- The accepted-result filter of the voting engine (spec side: the
"valid (non-error, schema-valid) results"). -/
def validVotes (l : List VoteRes) : List VoteRes := l.filter isVoteValid

/-- The extracted service names of the valid results, in vote order. -/
def voteNames (l : List VoteRes) : List (Option String) :=
  (validVotes l).map serviceNameOf

/-- Lookup in an insertion-ordered association list. -/
def lkAgg (acc : List (Nat × SvcAgg)) (svc : Nat) : Option SvcAgg :=
  (acc.find? (fun p => p.1 == svc)).map (fun p => p.2)

/-- Combining an accumulator entry with the aggregate of a list of
events (used to state the fold characterisation of
`get_average_downtime_by_service`). -/
def combineAgg (now : ℚ) (a : SvcAgg) (l : List DowntimeEventRec) : SvcAgg :=
  { total_seconds := a.total_seconds + totalDuration now l
    count := a.count + l.length
    ongoing_count := a.ongoing_count + l.countP (fun e => e.end_time.isNone)
    has_ongoing :=
      a.has_ongoing || !(l.countP (fun e => e.end_time.isNone) == 0) }

/-- The aggregate `create_notification` commits: the pre-call store plus
the `RawEmail`, `LLMData` and `Notification` rows it inserts. -/
def aggregateStore (st : Store) (subject : Option String) (received_at : ℚ)
    (original_email_id_str : String)
    (sender email_body_text email_body_html : Option String)
    (now : ℚ) : Store :=
  let raw : RawEmailRec :=
    { id := st.next_raw_email_id
      original_email_id_hash := sha256_hex original_email_id_str
      subject := subject
      sender := sender
      received_at := received_at
      body_text := email_body_text
      body_html := email_body_html
      has_html_body := pyTruthyStr email_body_html }
  let llm : LLMDataRec :=
    { id := st.next_llm_data_id
      processing_status := .UNPROCESSED
      error_message := none
      raw_llm_response := none
      extracted_service_name := none
      event_start_time := none
      event_end_time := none
      notification_type := none
      severity := none
      llm_summary := none }
  let notif : NotificationRec :=
    { id := st.next_notification_id
      title := subject
      status := .NEW
      raw_email_id := raw.id
      llm_data_id := llm.id
      last_checked_at := now }
  { st with
    raw_emails := st.raw_emails ++ [raw]
    llm_data := st.llm_data ++ [llm]
    notifications := st.notifications ++ [notif]
    next_raw_email_id := st.next_raw_email_id + 1
    next_llm_data_id := st.next_llm_data_id + 1
    next_notification_id := st.next_notification_id + 1 }

/-- The notification row `create_notification` returns on success. -/
def aggregateNotif (st : Store) (subject : Option String) (now : ℚ) :
    NotificationRec :=
  { id := st.next_notification_id
    title := subject
    status := .NEW
    raw_email_id := st.next_raw_email_id
    llm_data_id := st.next_llm_data_id
    last_checked_at := now }

/-- An event record `e'` descends from `e`: same row (same id and
unchanged immutable columns), with its end data either untouched or
cleared by reopening. -/
def evOrigin (e' e : DowntimeEventRec) : Prop :=
  e'.id = e.id ∧ e'.external_service_id = e.external_service_id ∧
  e'.start_notification_id = e.start_notification_id ∧
  e'.start_time = e.start_time ∧ e'.severity = e.severity ∧
  e'.summary = e.summary ∧
  ((e'.end_notification_id = e.end_notification_id ∧
      e'.end_time = e.end_time) ∨
    (e'.end_notification_id = none ∧ e'.end_time = none))

/-- The end-notification ids `delete_notification` collects from the
events started by the notification being deleted. -/
def endIds (s : Store) (nid : Nat) : List Nat :=
  (s.downtime_events.filter
    (fun e => e.start_notification_id == nid)).filterMap
    (fun e => e.end_notification_id)

/-- The four record tables other than the downtime events only ever
shrink under the deletion routines. -/
def NotifSub (s t : Store) : Prop :=
  t.notifications.Sublist s.notifications ∧
  t.llm_data.Sublist s.llm_data ∧
  t.raw_emails.Sublist s.raw_emails ∧
  t.impacts.Sublist s.impacts

/-- Every downtime event of the result store is an event of the input
store, possibly reopened. -/
def EvOrig (s t : Store) : Prop :=
  ∀ e' ∈ t.downtime_events, ∃ e ∈ s.downtime_events,
    e' = e ∨ e' = reopenEvent e

/-- An input event survives (possibly reopened) unless every notification
carrying its start id is gone from the result. -/
def EvKeep (s t : Store) : Prop :=
  ∀ e ∈ s.downtime_events,
    (e ∈ t.downtime_events ∨ reopenEvent e ∈ t.downtime_events) ∨
    (∀ m ∈ t.notifications, m.id ≠ e.start_notification_id)

/-- A removed notification takes its extraction row, its raw row and its
impact rows with it. -/
def SubrecGone (s t : Store) : Prop :=
  ∀ m ∈ s.notifications, m ∈ t.notifications ∨
    ((∀ l ∈ t.llm_data, l.id ≠ m.llm_data_id) ∧
     (∀ r ∈ t.raw_emails, r.id ≠ m.raw_email_id) ∧
     (∀ i ∈ t.impacts, i.notification_id ≠ m.id))

/-- An extraction row disappears only together with a notification that
referenced it. -/
def LlmGone (s t : Store) : Prop :=
  ∀ l ∈ s.llm_data, l ∈ t.llm_data ∨
    ∃ m ∈ s.notifications, m.llm_data_id = l.id ∧ m ∉ t.notifications

/-- A raw-email row disappears only together with a notification that
referenced it. -/
def RawGone (s t : Store) : Prop :=
  ∀ r ∈ s.raw_emails, r ∈ t.raw_emails ∨
    ∃ m ∈ s.notifications, m.raw_email_id = r.id ∧ m ∉ t.notifications

/-- The combined store relation maintained by `delete_notification` and
the deletion loops built on it. -/
def ShrinkRel (s t : Store) : Prop :=
  NotifSub s t ∧ EvOrig s t ∧ EvKeep s t ∧ SubrecGone s t ∧
  LlmGone s t ∧ RawGone s t

/-- Phase 1—2 of the consistency check: the store with the orphaned
`LLMData` and `RawEmail` rows removed. -/
def consistencyPrune (s : Store) : Store :=
  { s with
    llm_data := s.llm_data.filter
      (fun l => s.notifications.any (fun n => n.llm_data_id == l.id))
    raw_emails := s.raw_emails.filter
      (fun r => s.notifications.any (fun n => n.raw_email_id == r.id)) }

/-- The orphaned `LLMData` rows the consistency check reports. -/
def consistencyOrphanLlm (s : Store) : List LLMDataRec :=
  s.llm_data.filter
    (fun l => !(s.notifications.any (fun n => n.llm_data_id == l.id)))

/-- The orphaned `RawEmail` rows the consistency check reports. -/
def consistencyOrphanRaw (s : Store) : List RawEmailRec :=
  s.raw_emails.filter
    (fun r => !(s.notifications.any (fun n => n.raw_email_id == r.id)))

/-- The notifications whose `LLMData` row is missing after the prune. -/
def consistencyMissingLlm (s : Store) : List NotificationRec :=
  s.notifications.filter (fun n =>
    !((s.llm_data.filter (fun l => s.notifications.any
        (fun n2 => n2.llm_data_id == l.id))).any
      (fun l => l.id == n.llm_data_id)))

/-- The notifications whose `RawEmail` row is missing after the prune
(and that are not already listed for a missing `LLMData` row). -/
def consistencyMissingRaw (s : Store) : List NotificationRec :=
  s.notifications.filter (fun n =>
    !((consistencyMissingLlm s).any (fun m => m == n)) &&
    !((s.raw_emails.filter (fun r => s.notifications.any
        (fun n2 => n2.raw_email_id == r.id))).any
      (fun r => r.id == n.raw_email_id)))

/-- The incomplete notifications the consistency check deletes. -/
def consistencyIncomplete (s : Store) : List NotificationRec :=
  consistencyMissingLlm s ++ consistencyMissingRaw s

/-- The orphaned impact rows found in the store after the deletions. -/
def consistencyOrphanImp (s3 : Store) : List NotificationImpactRec :=
  s3.impacts.filter
    (fun i => !(s3.notifications.any (fun n => n.id == i.notification_id)))

/-! ## Concrete instances

Concrete stores and results used by the closed witness and counterexample
theorems below. -/

/-- A schema-valid vote result naming the service `AWS`. -/
def awsRes : VoteRes :=
  { error := none
    extracted_service_name := some (some "AWS")
    event_start_time := some none
    event_end_time := some none
    notification_type := some (some "info")
    event_summary := some (some "demo")
    severity_level := some (some "low") }

/-- A schema-valid vote result naming the service `Azure`. -/
def azureRes : VoteRes :=
  { awsRes with extracted_service_name := some (some "Azure") }

/-- The empty store. -/
def emptyStore : Store := ⟨[], [], [], [], [], [], [], [], 1, 1, 1, 1⟩

/-- A fresh `LLMData` row with the given id. -/
def llmRec (i : Nat) : LLMDataRec :=
  ⟨i, .UNPROCESSED, none, none, none, none, none, none, none, none⟩

/-- A minimal `RawEmail` row with the given id. -/
def rawRec (i : Nat) : RawEmailRec :=
  ⟨i, "h", none, none, 0, none, none, false⟩

/-- A notification with id `i` owning `RawEmail i` and `LLMData i`. -/
def notifRec (i : Nat) : NotificationRec := ⟨i, none, .NEW, i, i, 0⟩

/-- Store for the deletion scenario: notifications 1, 2, 3; event 10 runs
from notification 1 to notification 2; event 11 runs from notification 3
to notification 1; impacts for notifications 1 and 2. -/
def c6Store : Store :=
  { emptyStore with
    raw_emails := [rawRec 1, rawRec 2, rawRec 3]
    llm_data := [llmRec 1, llmRec 2, llmRec 3]
    notifications := [notifRec 1, notifRec 2, notifRec 3]
    impacts := [⟨1, 1, 5⟩, ⟨2, 2, 5⟩]
    downtime_events := [⟨10, 1, 1, 0, some 2, some 60, none, none⟩,
                        ⟨11, 1, 3, 0, some 1, some 90, none, none⟩] }

/-- Store with one complete notification and one orphaned `LLMData` row
(id 99, referenced by no notification). -/
def c8Store : Store :=
  { emptyStore with
    raw_emails := [rawRec 1]
    llm_data := [llmRec 1, llmRec 99]
    notifications := [notifRec 1] }

/-- `c6Store` after deleting notification 1: the start event is gone, its
end notification 2 is recursively gone with its sub-records and impact,
the end-only event is reopened, and notification 1 with its sub-records
and impact is gone; only notification 3 and its rows remain. -/
def c6After : Store :=
  { emptyStore with
    raw_emails := [rawRec 3]
    llm_data := [llmRec 3]
    notifications := [notifRec 3]
    downtime_events := [⟨11, 1, 3, 0, none, none, none, none⟩] }

/-- `c8Store` after the orphan removal. -/
def c8Fixed : Store :=
  { emptyStore with
    raw_emails := [rawRec 1]
    llm_data := [llmRec 1]
    notifications := [notifRec 1] }

/-- Store with one service and two downtime events: one closed after an
hour and one still open. -/
def c1Store : Store :=
  { emptyStore with
    external_services := [⟨1, "S", none, none⟩]
    downtime_events := [⟨1, 1, 1, 0, some 2, some 3600, none, none⟩,
                        ⟨2, 1, 2, 0, none, none, none, none⟩] }

/-- Store with one service and a single closed event lasting 7 200 000
seconds (120 000 minutes). -/
def c1CapStore : Store :=
  { emptyStore with
    external_services := [⟨1, "S", none, none⟩]
    downtime_events := [⟨1, 1, 1, 0, some 2, some 7200000, none, none⟩] }

/-- A session with no committed rows and no pending work. -/
def cleanSession : DbSession := ⟨emptyStore, emptyStore⟩

/-- Store with an internal system and an external service but no
dependency edge. -/
def c9Store : Store :=
  { emptyStore with
    internal_systems := [⟨3, "IS", none, none⟩]
    external_services := [⟨4, "ES", none, none⟩] }

/-- Store with a single already-closed downtime event. -/
def c10Store : Store :=
  { emptyStore with
    downtime_events := [⟨7, 1, 1, 0, some 2, some 60, none, none⟩] }

/-- Store with one notification (id 1) owning `LLMData` 1. -/
def c3Store : Store :=
  { emptyStore with
    raw_emails := [rawRec 1]
    llm_data := [llmRec 1]
    notifications := [notifRec 1] }

/-! # Theorems -/

/-! ## List helpers -/

/-- In a list whose `f`-keys are distinct, the first record whose key
matches `f a` is `a` itself. -/
theorem find?_key_of_nodup {α : Type _} (f : α → Nat) (l : List α)
    (hnd : (l.map f).Nodup) (a : α) (ha : a ∈ l) {k : Nat} (hk : f a = k) :
    l.find? (fun x => f x == k) = some a := by
  subst hk
  induction l with
  | nil => simp at ha
  | cons b t ih =>
    simp only [List.map_cons, List.nodup_cons] at hnd
    rcases List.mem_cons.mp ha with rfl | hat
    · simp
    · have hne : f b ≠ f a := by
        intro hfeq
        exact hnd.1 (hfeq ▸ List.mem_map_of_mem f hat)
      rw [List.find?_cons_of_neg _ (by simpa using hne)]
      exact ih hnd.2 hat

/-- A filter over a list with pairwise-incompatible hits keeps at most one
element. -/
theorem length_filter_le_one {α : Type _} {P : α → Bool} {R : α → α → Prop}
    {l : List α} (hp : l.Pairwise R)
    (h : ∀ a b, P a = true → P b = true → R a b → False) :
    (l.filter P).length ≤ 1 := by
  induction l with
  | nil => simp
  | cons a t ih =>
    rcases List.pairwise_cons.mp hp with ⟨hall, hpt⟩
    by_cases hPa : P a = true
    · have ht : t.filter P = [] := by
        rw [List.filter_eq_nil_iff]
        intro b hb hPb
        exact h a b hPa hPb (hall b hb)
      simp [hPa, ht]
    · simp only [List.filter_cons, hPa]
      simpa using ih hpt

/-! ## C10 — `CloseEvent` has no open-event precondition -/

/-- C10: `close_downtime_event` has no open-event precondition: for any
stored event with the requested id — open or already closed — it returns
the event with its end notification and end time unconditionally
overwritten (all other columns unchanged, the store updated in place), and
it returns `none` exactly when no event has that id. -/
theorem close_downtime_event_overwrites (s : Store)
    (event_id end_notification_id : Nat) (end_time : ℚ)
    (hnd : (s.downtime_events.map (fun e => e.id)).Nodup) :
    (∀ e ∈ s.downtime_events, e.id = event_id →
      ∃ e' s', close_downtime_event s event_id end_notification_id end_time =
          (some e', s') ∧
        e'.end_notification_id = some end_notification_id ∧
        e'.end_time = some end_time ∧
        e'.id = e.id ∧ e'.external_service_id = e.external_service_id ∧
        e'.start_notification_id = e.start_notification_id ∧
        e'.start_time = e.start_time ∧ e'.severity = e.severity ∧
        e'.summary = e.summary ∧
        e' ∈ s'.downtime_events ∧
        (∀ x ∈ s'.downtime_events, x.id = e.id → x = e') ∧
        (∀ x ∈ s'.downtime_events, x.id ≠ e.id → x ∈ s.downtime_events)) ∧
    ((∀ e ∈ s.downtime_events, e.id ≠ event_id) →
      close_downtime_event s event_id end_notification_id end_time =
        (none, s)) := by
  constructor
  · intro e he heid
    subst heid
    have hfind : s.downtime_events.find? (fun x => x.id == e.id) = some e :=
      find?_key_of_nodup (fun x => x.id) _ hnd e he rfl
    set e' : DowntimeEventRec :=
      { e with end_notification_id := some end_notification_id,
               end_time := some end_time } with he'
    set evs' : List DowntimeEventRec :=
      s.downtime_events.map (fun x => if x.id == e.id then e' else x) with hevs'
    set s' : Store := { s with downtime_events := evs' } with hs'
    have hres : close_downtime_event s e.id end_notification_id end_time =
        (some e', s') := by
      simp only [close_downtime_event, hfind]
    refine ⟨e', s', hres, rfl, rfl, rfl, rfl, rfl, rfl, rfl, rfl, ?_, ?_, ?_⟩
    · refine List.mem_map.mpr ⟨e, he, ?_⟩
      simp
    · intro x hx hxid
      rcases List.mem_map.mp hx with ⟨y, hy, hyx⟩
      by_cases hyid : y.id = e.id
      · simpa [hyid] using hyx.symm
      · exfalso
        rw [← hyx] at hxid
        simp only [he'] at hxid
        simp [hyid] at hxid
    · intro x hx hxid
      rcases List.mem_map.mp hx with ⟨y, hy, hyx⟩
      by_cases hyid : y.id = e.id
      · exfalso
        rw [← hyx] at hxid
        simp [hyid] at hxid
      · rw [← hyx]
        simpa [hyid] using hy
  · intro habs
    have hfind : s.downtime_events.find? (fun x => x.id == event_id) = none :=
      List.find?_eq_none.mpr (fun x hx => by simpa using habs x hx)
    simp only [close_downtime_event, hfind]

/-- C10 witness: closing the already-closed event 7 of `c10Store` (end
notification 2, end time 60) succeeds and silently replaces its end data
with notification 9 and time 120. -/
theorem close_downtime_event_overwrites_witness :
    ∃ e' s', close_downtime_event c10Store 7 9 120 = (some e', s') ∧
      e'.end_notification_id = some 9 ∧ e'.end_time = some 120 := by
  obtain ⟨e', s', h1, h2, h3, _⟩ :=
    (close_downtime_event_overwrites c10Store 7 9 120 (by decide)).1
      ⟨7, 1, 1, 0, some 2, some 60, none, none⟩ (by decide) rfl
  exact ⟨e', s', h1, h2, h3⟩

/-! ## C9 — duplicate dependency creation is idempotent -/

/-- C9: with an existing internal system and external service, creating
the same dependency edge twice returns the same row both times (no error),
and exactly one row for the pair exists afterwards. -/
theorem create_dependency_idempotent (s : Store) (isysId esvcId : Nat)
    (hi : ∃ i ∈ s.internal_systems, i.id = isysId)
    (he : ∃ e ∈ s.external_services, e.id = esvcId)
    (huniq : s.dependencies.Pairwise (fun a b =>
      ¬(a.internal_system_id = b.internal_system_id ∧
        a.external_service_id = b.external_service_id)))
    (desc1 desc2 : Option String) :
    ∃ d1 s1 d2 s2,
      create_dependency s isysId esvcId desc1 = (some d1, s1) ∧
      create_dependency s1 isysId esvcId desc2 = (some d2, s2) ∧
      d2 = d1 ∧ s2 = s1 ∧
      d1.internal_system_id = isysId ∧ d1.external_service_id = esvcId ∧
      (s2.dependencies.filter (fun d =>
        d.internal_system_id == isysId &&
        d.external_service_id == esvcId)).length = 1 := by
  obtain ⟨irec, hirec, hiid⟩ := hi
  obtain ⟨erec, herec, heid⟩ := he
  have hfi : (s.internal_systems.find? (fun i => i.id == isysId)).isSome := by
    rw [List.find?_isSome]
    exact ⟨irec, hirec, by simp [hiid]⟩
  have hfe : (s.external_services.find? (fun e => e.id == esvcId)).isSome := by
    rw [List.find?_isSome]
    exact ⟨erec, herec, by simp [heid]⟩
  obtain ⟨ifound, hifound⟩ := Option.isSome_iff_exists.mp hfi
  obtain ⟨efound, hefound⟩ := Option.isSome_iff_exists.mp hfe
  cases hfd : s.dependencies.find? (fun d =>
      d.internal_system_id == isysId && d.external_service_id == esvcId) with
  | some existing =>
    have hex : ∀ dsc, create_dependency s isysId esvcId dsc =
        (some existing, s) := by
      intro dsc
      simp only [create_dependency, hifound, hefound, hfd]
    have hPex := List.find?_some hfd
    have hmem := List.mem_of_find?_eq_some hfd
    have hprop := hPex
    simp only [Bool.and_eq_true, beq_iff_eq] at hprop
    refine ⟨existing, s, existing, s, hex desc1, hex desc2, rfl, rfl,
      hprop.1, hprop.2, ?_⟩
    have hmemf : existing ∈ s.dependencies.filter (fun d =>
        d.internal_system_id == isysId && d.external_service_id == esvcId) :=
      List.mem_filter.mpr ⟨hmem, hPex⟩
    have hge : 1 ≤ (s.dependencies.filter (fun d =>
        d.internal_system_id == isysId &&
        d.external_service_id == esvcId)).length :=
      List.length_pos.mpr (fun hnil => by simp [hnil] at hmemf)
    have hle : (s.dependencies.filter (fun d =>
        d.internal_system_id == isysId &&
        d.external_service_id == esvcId)).length ≤ 1 := by
      refine length_filter_le_one huniq ?_
      intro a b hPa hPb hR
      simp only [Bool.and_eq_true, beq_iff_eq] at hPa hPb
      exact hR ⟨hPa.1.trans hPb.1.symm, hPa.2.trans hPb.2.symm⟩
    exact le_antisymm hle hge
  | none =>
    set d : DependencyRec :=
      { id := s.next_dependency_id
        internal_system_id := isysId
        external_service_id := esvcId
        dependency_description := desc1 } with hd
    set s1 : Store := { s with
      dependencies := s.dependencies ++ [d]
      next_dependency_id := s.next_dependency_id + 1 } with hs1
    have hPd : (fun x : DependencyRec => x.internal_system_id == isysId &&
        x.external_service_id == esvcId) d = true := by simp [hd]
    have hcall1 : create_dependency s isysId esvcId desc1 = (some d, s1) := by
      simp only [create_dependency, hifound, hefound, hfd]
    have hfd1 : (s.dependencies ++ [d]).find? (fun x =>
        x.internal_system_id == isysId &&
        x.external_service_id == esvcId) = some d := by
      rw [List.find?_append, hfd]
      simp [hd]
    have hcall2 : create_dependency s1 isysId esvcId desc2 = (some d, s1) := by
      have h1 : s1.internal_systems = s.internal_systems := rfl
      have h2 : s1.external_services = s.external_services := rfl
      have h3 : s1.dependencies = s.dependencies ++ [d] := rfl
      simp only [create_dependency, h1, h2, h3, hifound, hefound, hfd1]
    refine ⟨d, s1, d, s1, hcall1, hcall2, rfl, rfl, rfl, rfl, ?_⟩
    have hnil : s.dependencies.filter (fun x =>
        x.internal_system_id == isysId &&
        x.external_service_id == esvcId) = [] :=
      List.filter_eq_nil_iff.mpr (fun a ha hPa =>
        List.find?_eq_none.mp hfd a ha hPa)
    have h3 : s1.dependencies = s.dependencies ++ [d] := rfl
    rw [h3, List.filter_append, hnil]
    simp [hd]

/-- C9 witness: on `c9Store` (system 3, service 4, no edges), two
identical dependency creations return one shared row and leave exactly one
matching row. -/
theorem create_dependency_idempotent_witness :
    ∃ d1 s1 d2 s2,
      create_dependency c9Store 3 4 (some "a") = (some d1, s1) ∧
      create_dependency s1 3 4 (some "b") = (some d2, s2) ∧
      d2 = d1 ∧ s2 = s1 ∧
      d1.internal_system_id = 3 ∧ d1.external_service_id = 4 ∧
      (s2.dependencies.filter (fun d =>
        d.internal_system_id == 3 && d.external_service_id == 4)).length = 1 :=
  create_dependency_idempotent c9Store 3 4
    ⟨⟨3, "IS", none, none⟩, by decide, rfl⟩
    ⟨⟨4, "ES", none, none⟩, by decide, rfl⟩
    (by decide) (some "a") (some "b")

/-! ## C2 — notification-type parsing is *not* total (code bug) -/

/-- C2 (code bug): the parsing helper is not total.  The fallback keyword
table of `parse_llm_notification_type` names `NotificationTypeEnum.RESOLVED`,
a member the enum does not have, so evaluating the table raises
`AttributeError` for **every** non-empty input that is not an exact enum
value — `"incident"` (which the claim says maps to outage) and `"resolved"`
both crash; only exact enum values and empty/null inputs return normally. -/
theorem parse_llm_notification_type_not_total :
    notificationTypeMember "RESOLVED" = none ∧
    parse_llm_notification_type (some "incident") =
      .error (.attributeError "RESOLVED") ∧
    parse_llm_notification_type (some "resolved") =
      .error (.attributeError "RESOLVED") ∧
    parse_llm_notification_type (some "Update: resolved") =
      .error (.attributeError "RESOLVED") ∧
    parse_llm_notification_type (some " Outage ") = .ok .OUTAGE ∧
    parse_llm_notification_type (some "") = .ok .UNKNOWN ∧
    parse_llm_notification_type none = .ok .UNKNOWN := by
  decide

/-! ## C3 — `ApplyExtraction` status precedence -/

/-- The code's truthiness-guarded keyword scan agrees with the spec's
"summary contains a resolution keyword" (the code's list repeats
`"resolved"`, and its non-empty-string guard is redundant because the
empty string contains no keyword). -/
theorem summary_scan_eq (o : Option String) :
    summaryIndicatesResolution o = summaryHasResolutionKeyword o := by
  cases o with
  | none => rfl
  | some s =>
    by_cases hs : s = ""
    · subst hs; decide
    · simp only [summaryIndicatesResolution, summaryHasResolutionKeyword,
        resolutionKeywords, List.any_cons, List.any_nil]
      rw [show (decide ¬(s = "")) = true by simp [hs]]
      cases pyContains "resolved" (pyLower s) <;> simp

/-- On completed processing the code's type mapping equals the spec's
type-based table. -/
theorem map_type_eq_spec (ntype : Option NotificationTypeEnum)
    (summ : Option String) :
    _map_notification_type_to_status ntype summ =
      specNotificationStatus none .COMPLETED ntype summ := by
  cases ntype with
  | none => rfl
  | some t =>
    cases t <;>
      simp [_map_notification_type_to_status, specNotificationStatus,
        summary_scan_eq]

/-- Off the completed path the code's processing-status mapping equals the
spec's processing-status table. -/
theorem map_processing_eq_spec (ps : ProcessingStatusEnum)
    (hps : ps ≠ .COMPLETED) (ntype : Option NotificationTypeEnum)
    (summ : Option String) :
    _map_llm_status_to_notification_status ps =
      specNotificationStatus none ps ntype summ := by
  cases ps <;>
    simp_all [_map_llm_status_to_notification_status, specNotificationStatus]

/-- C3: for an `ApplyExtraction` call on an existing extraction record
whose parent notification exists, the update succeeds, overwrites the
extraction fields and clears the error message, and sets the parent
notification's status to exactly the spec's precedence — explicit status
first, else type mapping on completed processing, else processing-status
mapping — stamping `last_checked_at`. -/
theorem apply_extraction_status_precedence (s : Store) (l : LLMDataRec)
    (n : NotificationRec)
    (hndLlm : (s.llm_data.map (fun x => x.id)).Nodup)
    (hndRef : (s.notifications.map (fun x => x.llm_data_id)).Nodup)
    (hl : l ∈ s.llm_data) (hn : n ∈ s.notifications)
    (href : n.llm_data_id = l.id)
    (esn : Option String) (et1 et2 : Option ℚ)
    (ntype : Option NotificationTypeEnum) (sev : Option SeverityEnum)
    (summ raw : Option String) (ps : ProcessingStatusEnum)
    (nstat : Option NotificationStatusEnum) (now : ℚ) :
    ∃ l' s', update_llm_data_extracted_fields s l.id esn et1 et2 ntype sev
        summ raw ps nstat now = some (l', s') ∧
      l'.processing_status = ps ∧ l'.error_message = none ∧
      l'.extracted_service_name = esn ∧ l'.notification_type = ntype ∧
      l'.llm_summary = summ ∧
      ∃ n' ∈ s'.notifications, n'.id = n.id ∧
        n'.status = specNotificationStatus nstat ps ntype summ ∧
        n'.last_checked_at = now := by
  have hfl : s.llm_data.find? (fun x => x.id == l.id) = some l :=
    find?_key_of_nodup (fun x => x.id) _ hndLlm l hl rfl
  have hfn : s.notifications.find? (fun x => x.llm_data_id == l.id) = some n :=
    find?_key_of_nodup (fun x => x.llm_data_id) _ hndRef n hn href
  have hstat : (match nstat with
      | some st => some st
      | none =>
        if ps = ProcessingStatusEnum.COMPLETED then
          some (_map_notification_type_to_status ntype summ)
        else some (_map_llm_status_to_notification_status ps)) =
      some (specNotificationStatus nstat ps ntype summ) := by
    cases nstat with
    | some st => rfl
    | none =>
      by_cases hps : ps = .COMPLETED
      · subst hps
        rw [if_pos rfl, map_type_eq_spec]
      · rw [if_neg hps, map_processing_eq_spec ps hps]
  set l' : LLMDataRec :=
    { l with
      extracted_service_name := esn
      event_start_time := et1
      event_end_time := et2
      notification_type := ntype
      severity := sev
      llm_summary := summ
      raw_llm_response := raw
      processing_status := ps
      error_message := none } with hl'
  refine ⟨l',
    { s with
      llm_data := s.llm_data.map (fun m => if m.id == l.id then l' else m)
      notifications := s.notifications.map (fun m =>
        if m.id == n.id then
          { m with
            status := (match nstat with
              | some st => some st
              | none =>
                if ps = ProcessingStatusEnum.COMPLETED then
                  some (_map_notification_type_to_status ntype summ)
                else
                  some (_map_llm_status_to_notification_status ps)).getD m.status
            last_checked_at := now }
        else m) },
    ?_, rfl, rfl, rfl, rfl, rfl, ?_⟩
  · simp only [update_llm_data_extracted_fields, hfl, hfn]
  · refine ⟨{ n with
        status := specNotificationStatus nstat ps ntype summ
        last_checked_at := now }, ?_, rfl, rfl, rfl⟩
    refine List.mem_map.mpr ⟨n, hn, ?_⟩
    simp [hstat]

/-- C3 witness: on `c3Store`, applying a completed extraction of type
update with a restoration summary moves notification 1 to the
spec-mandated status (resolved) and stamps the check time. -/
theorem apply_extraction_status_precedence_witness :
    ∃ l' s', update_llm_data_extracted_fields c3Store 1 (some "AWS") none none
        (some .UPDATE) (some .LOW)
        (some "Service fully restored and operating normally")
        (some "{}") .COMPLETED none 5 = some (l', s') ∧
      l'.processing_status = .COMPLETED ∧ l'.error_message = none ∧
      l'.extracted_service_name = some "AWS" ∧
      l'.notification_type = some .UPDATE ∧
      l'.llm_summary = some "Service fully restored and operating normally" ∧
      ∃ n' ∈ s'.notifications, n'.id = 1 ∧
        n'.status = specNotificationStatus none .COMPLETED (some .UPDATE)
          (some "Service fully restored and operating normally") ∧
        n'.last_checked_at = 5 :=
  apply_extraction_status_precedence c3Store (llmRec 1) (notifRec 1)
    (by decide) (by decide) (by decide) (by decide) rfl
    (some "AWS") none none (some .UPDATE) (some .LOW)
    (some "Service fully restored and operating normally") (some "{}")
    .COMPLETED none 5

/-! ## C5 — aggregate creation is atomic only up to the commit -/

/-- C5 (amended): starting from a clean session, `create_notification`
never persists a partial aggregate — afterwards the committed store is
either the pre-call store or the pre-call store plus all three rows.  A
failure at or before the transaction commit (the two insert flushes or the
commit itself) reports failure with the committed store in its pre-call
state; but a failure in a post-commit step (one of the three `refresh`
calls or the redundant second `commit`) reports failure while all three
rows remain persisted, so the store is *not* in its pre-call state. -/
theorem create_notification_commit_boundary (db : DbSession)
    (hclean : db.pending = db.committed) (subject : Option String)
    (received_at : ℚ) (orig : String) (sender btext bhtml : Option String)
    (now : ℚ) (failAt : Option Nat) :
    ∀ res post, create_notification db subject received_at orig sender
        btext bhtml now failAt = (res, post) →
      (post.committed = db.committed ∨
        post.committed = aggregateStore db.committed subject received_at orig
          sender btext bhtml now) ∧
      (∀ k, failAt = some k → k ≤ 2 →
        res = none ∧ post.committed = db.committed ∧
        post.pending = db.committed) ∧
      (∀ k, failAt = some k → 3 ≤ k → k ≤ 6 →
        res = none ∧
        post.committed = aggregateStore db.committed subject received_at orig
          sender btext bhtml now) ∧
      ((failAt = none ∨ ∃ k, failAt = some k ∧ 7 ≤ k) →
        res = some (aggregateNotif db.committed subject now) ∧
        post.committed = aggregateStore db.committed subject received_at orig
          sender btext bhtml now) := by
  intro res post h
  have hagg : aggregateStore db.committed subject received_at orig sender
      btext bhtml now = aggregateStore db.pending subject received_at orig
      sender btext bhtml now := by rw [hclean]
  have hnotif : aggregateNotif db.committed subject now =
      aggregateNotif db.pending subject now := by rw [hclean]
  rcases failAt with _ | (_ | _ | _ | _ | _ | _ | _ | k)
  · rw [show create_notification db subject received_at orig sender btext
        bhtml now none =
      (some (aggregateNotif db.pending subject now),
        ⟨aggregateStore db.pending subject received_at orig sender btext
          bhtml now,
         aggregateStore db.pending subject received_at orig sender btext
          bhtml now⟩) from rfl] at h
    cases h
    refine ⟨Or.inr (by rw [hagg]), ?_, ?_, ?_⟩
    · intro k hk; exact absurd hk (by simp)
    · intro k hk; exact absurd hk (by simp)
    · intro _; exact ⟨by rw [hnotif], by rw [hagg]⟩
  · rw [show create_notification db subject received_at orig sender btext
        bhtml now (some 0) = (none, ⟨db.committed, db.committed⟩) from rfl] at h
    cases h
    refine ⟨Or.inl rfl, fun k hk _ => ⟨rfl, rfl, rfl⟩, ?_, ?_⟩
    · intro k hk h3 _; cases hk; omega
    · rintro (hk | ⟨k, hk, h7⟩); · cases hk
      cases hk; omega
  · rw [show create_notification db subject received_at orig sender btext
        bhtml now (some 1) = (none, ⟨db.committed, db.committed⟩) from rfl] at h
    cases h
    refine ⟨Or.inl rfl, fun k hk _ => ⟨rfl, rfl, rfl⟩, ?_, ?_⟩
    · intro k hk h3 _; cases hk; omega
    · rintro (hk | ⟨k, hk, h7⟩); · cases hk
      cases hk; omega
  · rw [show create_notification db subject received_at orig sender btext
        bhtml now (some 2) = (none, ⟨db.committed, db.committed⟩) from rfl] at h
    cases h
    refine ⟨Or.inl rfl, fun k hk _ => ⟨rfl, rfl, rfl⟩, ?_, ?_⟩
    · intro k hk h3 _; cases hk; omega
    · rintro (hk | ⟨k, hk, h7⟩); · cases hk
      cases hk; omega
  · rw [show create_notification db subject received_at orig sender btext
        bhtml now (some 3) =
      (none, ⟨aggregateStore db.pending subject received_at orig sender
        btext bhtml now,
        aggregateStore db.pending subject received_at orig sender btext
          bhtml now⟩) from rfl] at h
    cases h
    refine ⟨Or.inr (by rw [hagg]), ?_, fun k hk _ _ => ⟨rfl, by rw [hagg]⟩, ?_⟩
    · intro k hk hle; cases hk; omega
    · rintro (hk | ⟨k, hk, h7⟩); · cases hk
      cases hk; omega
  · rw [show create_notification db subject received_at orig sender btext
        bhtml now (some 4) =
      (none, ⟨aggregateStore db.pending subject received_at orig sender
        btext bhtml now,
        aggregateStore db.pending subject received_at orig sender btext
          bhtml now⟩) from rfl] at h
    cases h
    refine ⟨Or.inr (by rw [hagg]), ?_, fun k hk _ _ => ⟨rfl, by rw [hagg]⟩, ?_⟩
    · intro k hk hle; cases hk; omega
    · rintro (hk | ⟨k, hk, h7⟩); · cases hk
      cases hk; omega
  · rw [show create_notification db subject received_at orig sender btext
        bhtml now (some 5) =
      (none, ⟨aggregateStore db.pending subject received_at orig sender
        btext bhtml now,
        aggregateStore db.pending subject received_at orig sender btext
          bhtml now⟩) from rfl] at h
    cases h
    refine ⟨Or.inr (by rw [hagg]), ?_, fun k hk _ _ => ⟨rfl, by rw [hagg]⟩, ?_⟩
    · intro k hk hle; cases hk; omega
    · rintro (hk | ⟨k, hk, h7⟩); · cases hk
      cases hk; omega
  · rw [show create_notification db subject received_at orig sender btext
        bhtml now (some 6) =
      (none, ⟨aggregateStore db.pending subject received_at orig sender
        btext bhtml now,
        aggregateStore db.pending subject received_at orig sender btext
          bhtml now⟩) from rfl] at h
    cases h
    refine ⟨Or.inr (by rw [hagg]), ?_, fun k hk _ _ => ⟨rfl, by rw [hagg]⟩, ?_⟩
    · intro k hk hle; cases hk; omega
    · rintro (hk | ⟨k, hk, h7⟩); · cases hk
      cases hk; omega
  · rw [show create_notification db subject received_at orig sender btext
        bhtml now (some (k + 7)) =
      (some (aggregateNotif db.pending subject now),
        ⟨aggregateStore db.pending subject received_at orig sender btext
          bhtml now,
         aggregateStore db.pending subject received_at orig sender btext
          bhtml now⟩) from rfl] at h
    cases h
    refine ⟨Or.inr (by rw [hagg]), ?_, ?_, ?_⟩
    · intro j hk hle; cases hk; omega
    · intro j hk h3 h6; cases hk; omega
    · intro _; exact ⟨by rw [hnotif], by rw [hagg]⟩

/-- C5 witness: on a clean empty session, a failure injected at the flush
of the `LLMData` insert (a pre-commit step) reports failure and leaves the
committed store in its pre-call state. -/
theorem create_notification_commit_boundary_witness :
    (create_notification cleanSession (some "s") 0 "mid" none none none 0
      (some 1)).1 = none ∧
    (create_notification cleanSession (some "s") 0 "mid" none none none 0
      (some 1)).2.committed = cleanSession.committed := by
  have h := create_notification_commit_boundary cleanSession rfl (some "s")
    0 "mid" none none none 0 (some 1) _ _ rfl
  obtain ⟨-, h2, -, -⟩ := h
  have h3 := h2 1 rfl (by omega)
  exact ⟨h3.1, h3.2.1⟩

/-- C5 counterexample: on a clean empty session, a failure injected at the
first `refresh` call — after the commit — makes `create_notification`
report failure (`None`) while the `RawEmail` row (and the whole aggregate)
remains persisted: the store is not in its pre-call state, refuting "for
any failure at any point during Create, none of the records persists". -/
theorem create_notification_postcommit_failure :
    (create_notification cleanSession (some "s") 0 "mid" none none none 0
      (some 3)).1 = none ∧
    (create_notification cleanSession (some "s") 0 "mid" none none none 0
      (some 3)).2.committed ≠ cleanSession.committed ∧
    (create_notification cleanSession (some "s") 0 "mid" none none none 0
      (some 3)).2.committed.raw_emails.length = 1 ∧
    cleanSession.committed.raw_emails.length = 0 := by
  refine ⟨rfl, ?_, rfl, rfl⟩
  intro hcontr
  have hlen := congrArg (fun st => st.raw_emails.length) hcontr
  have hne : ¬((create_notification cleanSession (some "s") 0 "mid" none none
      none 0 (some 3)).2.committed.raw_emails.length =
      cleanSession.committed.raw_emails.length) := by decide
  exact hne hlen

/-! ## C7 — completion-call budget of `Extract` -/

/-- The retry loop makes at most `max_attempts` completion calls. -/
theorem retryLoop_calls_le (oracle : Nat → VoteRes) :
    ∀ (n : Nat) (idx : Nat) (last : VoteRes),
      (retryLoop oracle idx n last).2 ≤ n := by
  intro n
  induction n with
  | zero => intro idx last; simp [retryLoop]
  | succ m ih =>
    intro idx last
    simp only [retryLoop]
    split
    · simp
    · have := ih (idx + 1) (oracle idx)
      omega

/-- The voting loop takes exactly `votes` votes and makes at most
`votes * max_attempts` completion calls. -/
theorem votingCollect_bounds (oracle : Nat → VoteRes) (max_attempts : Nat) :
    ∀ (votes idx : Nat),
      (votingCollect oracle max_attempts idx votes).1.length = votes ∧
      (votingCollect oracle max_attempts idx votes).2 ≤
        votes * max_attempts := by
  intro votes
  induction votes with
  | zero => intro idx; simp [votingCollect]
  | succ m ih =>
    intro idx
    simp only [votingCollect, List.length_cons]
    have h1 := retryLoop_calls_le oracle max_attempts idx emptyVoteRes
    have h2 := ih (idx + (analyze_with_retry oracle idx max_attempts).2)
    refine ⟨by rw [h2.1], ?_⟩
    have h3 := h2.2
    calc (analyze_with_retry oracle idx max_attempts).2 +
        (votingCollect oracle max_attempts
          (idx + (analyze_with_retry oracle idx max_attempts).2) m).2 ≤
        max_attempts + m * max_attempts :=
          Nat.add_le_add h1 h3
      _ = (m + 1) * max_attempts := by ring

/-- C7 (amended): with the default parameters, `analyze_with_voting` takes
exactly 3 votes; each vote makes at most 2 completion calls (one initial
attempt plus at most **1** retry, since `max_attempts = 2` counts total
attempts); and one full voting call makes at most 6 completion calls. -/
theorem voting_call_bound (oracle : Nat → VoteRes) (idx : Nat) :
    (votingCollect oracle 2 idx 3).1.length = 3 ∧
    (∀ j, (analyze_with_retry oracle j 2).2 ≤ 2) ∧
    (analyze_with_voting oracle idx).2 ≤ 6 := by
  refine ⟨(votingCollect_bounds oracle 2 3 idx).1,
    fun j => retryLoop_calls_le oracle 2 j emptyVoteRes, ?_⟩
  have h := (votingCollect_bounds oracle 2 3 idx).2
  simpa [analyze_with_voting] using h

/-- C7 counterexample: with an oracle whose responses always fail
validation, a single vote makes exactly 2 completion calls — not the
claimed 3 (one initial attempt plus 2 retries) — and a full default
`Extract` makes exactly 6 calls, not 9: the retry budget is 1 retry (2
total attempts), not 2. -/
theorem voting_call_bound_counterexample :
    (analyze_with_retry (fun _ => emptyVoteRes) 0 2).2 = 2 ∧ (2 : Nat) ≠ 3 ∧
    (analyze_with_voting (fun _ => emptyVoteRes) 0).2 = 6 ∧ (6 : Nat) ≠ 9 := by
  decide

/-! ## C4 — voting reduction: first-seen majority -/

/-- A member's first index is below the length. -/
theorem firstIdx_lt_length {l : List (Option String)} {k : Option String}
    (h : k ∈ l) : firstIdx l k < l.length := by
  induction l with
  | nil => simp at h
  | cons x t ih =>
    cases hx : x == k with
    | true => simp [firstIdx, hx]
    | false =>
      have hk : k ∈ t := by
        rcases List.mem_cons.mp h with rfl | ht
        · simp at hx
        · exact ht
      have := ih hk
      simp only [firstIdx, hx, List.length_cons]
      simp only [Bool.false_eq_true, if_false]
      omega

/-- Appending on the right does not move the first index of a member. -/
theorem firstIdx_append_left {l : List (Option String)}
    (t : List (Option String)) {k : Option String} (h : k ∈ l) :
    firstIdx (l ++ t) k = firstIdx l k := by
  induction l with
  | nil => simp at h
  | cons x m ih =>
    rw [List.cons_append]
    cases hx : x == k with
    | true => simp [firstIdx, hx]
    | false =>
      have hk : k ∈ m := by
        rcases List.mem_cons.mp h with rfl | hm
        · simp at hx
        · exact hm
      simp only [firstIdx, hx, Bool.false_eq_true, if_false]
      rw [ih hk]

/-- A fresh element appended on the right first occurs at the old length. -/
theorem firstIdx_append_self {l : List (Option String)} {a : Option String}
    (h : a ∉ l) : firstIdx (l ++ [a]) a = l.length := by
  induction l with
  | nil => simp [firstIdx]
  | cons x m ih =>
    have hxa : (x == a) = false := by
      simp only [beq_eq_false_iff_ne, ne_eq]
      intro hxa
      exact h (hxa ▸ List.mem_cons_self x m)
    rw [List.cons_append]
    simp only [firstIdx, hxa, Bool.false_eq_true, if_false, List.length_cons]
    rw [ih (fun hm => h (List.mem_cons_of_mem x hm))]

/-- Invariants of the `counts` dict: every entry stores the occurrence
count of its key and its key occurs in the list; every name has an entry;
keys are distinct; and keys are listed in strictly increasing order of
first occurrence. -/
theorem countsOf_inv (names : List (Option String)) :
    (∀ p ∈ countsOf names, p.2 = names.count p.1 ∧ p.1 ∈ names) ∧
    (∀ k ∈ names, ∃ v, (k, v) ∈ countsOf names) ∧
    ((countsOf names).map Prod.fst).Nodup ∧
    ((countsOf names).map Prod.fst).Pairwise
      (fun a b => firstIdx names a < firstIdx names b) := by
  induction names using List.reverseRecOn with
  | nil => simp [countsOf]
  | append_singleton l a ih =>
    obtain ⟨ihv, ihc, ihn, ihp⟩ := ih
    have hstep : countsOf (l ++ [a]) = bumpCount (countsOf l) a := by
      simp [countsOf, List.foldl_append]
    by_cases hmem : (countsOf l).any (fun p => p.1 == a)
    · -- the key is present: bump it in place
      obtain ⟨q, hq, hqa⟩ := List.any_eq_true.mp hmem
      have hqa' : q.1 = a := by simpa using hqa
      have hbump : countsOf (l ++ [a]) = (countsOf l).map
          (fun p => if p.1 == a then (p.1, p.2 + 1) else p) := by
        rw [hstep, bumpCount, if_pos hmem]
      have hkeys : (countsOf (l ++ [a])).map Prod.fst =
          (countsOf l).map Prod.fst := by
        rw [hbump, List.map_map]
        refine List.map_congr_left ?_
        intro p hp
        cases hpa : p.1 == a
        · simp only [Function.comp_apply, hpa, Bool.false_eq_true, if_false]
        · simp only [Function.comp_apply, hpa, if_true]
      have hainl : a ∈ l := by
        have := (ihv q hq).2
        rwa [hqa'] at this
      refine ⟨?_, ?_, ?_, ?_⟩
      · intro p' hp'
        rw [hbump] at hp'
        rcases List.mem_map.mp hp' with ⟨p, hp, hpe⟩
        have hv := ihv p hp
        by_cases hpa : p.1 == a
        · have hpa' : p.1 = a := by simpa using hpa
          rw [if_pos hpa] at hpe
          subst hpe
          constructor
          · simp only [hpa', List.count_append]
            rw [hv.1, hpa']
            simp
          · simp [hpa']
        · have hpa' : p.1 ≠ a := by simpa using hpa
          rw [if_neg hpa] at hpe
          subst hpe
          refine ⟨?_, List.mem_append_left _ hv.2⟩
          rw [hv.1, List.count_append]
          have : [a].count p.1 = 0 := by
            simp [List.count_singleton]
            exact fun h => absurd h.symm hpa'
          omega
      · intro k hk
        rcases List.mem_append.mp hk with hkl | hka
        · obtain ⟨v, hv⟩ := ihc k hkl
          have hmm := List.mem_map_of_mem
            (fun p => if p.1 == a then (p.1, p.2 + 1) else p) hv
          cases hka2 : (k == a)
          · refine ⟨v, ?_⟩
            rw [hbump]
            simpa [hka2] using hmm
          · refine ⟨v + 1, ?_⟩
            rw [hbump]
            simpa [hka2] using hmm
        · have hka2 : k = a := by simpa using hka
          obtain ⟨v, hv⟩ := ihc a hainl
          have hmm := List.mem_map_of_mem
            (fun p => if p.1 == a then (p.1, p.2 + 1) else p) hv
          refine ⟨v + 1, ?_⟩
          rw [hbump, hka2]
          simpa using hmm
      · rw [hkeys]; exact ihn
      · rw [hkeys]
        refine ihp.imp_of_mem ?_
        intro x y hx hy hxy
        rcases List.mem_map.mp hx with ⟨px, hpx, rfl⟩
        rcases List.mem_map.mp hy with ⟨py, hpy, rfl⟩
        rw [firstIdx_append_left _ (ihv px hpx).2,
          firstIdx_append_left _ (ihv py hpy).2]
        exact hxy
    · -- fresh key: append it with count 1
      have hbump : countsOf (l ++ [a]) = countsOf l ++ [(a, 1)] := by
        rw [hstep, bumpCount, if_neg (by simpa using hmem)]
      have hnotin : ∀ p ∈ countsOf l, p.1 ≠ a := by
        intro p hp hpa
        refine (List.any_eq_true.not.mp hmem) ⟨p, hp, by simpa using hpa⟩
      have hanl : a ∉ l := by
        intro hal
        obtain ⟨v, hv⟩ := ihc a hal
        exact hnotin (a, v) hv rfl
      refine ⟨?_, ?_, ?_, ?_⟩
      · intro p' hp'
        rw [hbump] at hp'
        rcases List.mem_append.mp hp' with hp | hp
        · have hv := ihv p' hp
          refine ⟨?_, List.mem_append_left _ hv.2⟩
          rw [hv.1, List.count_append]
          have : [a].count p'.1 = 0 := by
            simp [List.count_singleton]
            exact fun h => absurd h.symm (hnotin p' hp)
          omega
        · have : p' = (a, 1) := by simpa using hp
          subst this
          constructor
          · simp only [List.count_append]
            rw [List.count_eq_zero.mpr hanl]
            simp
          · simp
      · intro k hk
        rcases List.mem_append.mp hk with hkl | hka
        · obtain ⟨v, hv⟩ := ihc k hkl
          exact ⟨v, by rw [hbump]; exact List.mem_append_left _ hv⟩
        · have : k = a := by simpa using hka
          subst this
          exact ⟨1, by rw [hbump]; simp⟩
      · rw [hbump, List.map_append]
        rw [List.nodup_append]
        refine ⟨ihn, by simp, ?_⟩
        intro x hx
        rcases List.mem_map.mp hx with ⟨p, hp, rfl⟩
        simp only [List.map_cons, List.map_nil, List.mem_singleton]
        exact fun hpa => hnotin p hp hpa
      · rw [hbump, List.map_append]
        rw [List.pairwise_append]
        refine ⟨?_, by simp, ?_⟩
        · refine ihp.imp_of_mem ?_
          intro x y hx hy hxy
          rcases List.mem_map.mp hx with ⟨px, hpx, rfl⟩
          rcases List.mem_map.mp hy with ⟨py, hpy, rfl⟩
          rw [firstIdx_append_left _ (ihv px hpx).2,
            firstIdx_append_left _ (ihv py hpy).2]
          exact hxy
        · intro x hx y hy
          rcases List.mem_map.mp hx with ⟨px, hpx, rfl⟩
          have hy' : y = a := by simpa using hy
          subst hy'
          rw [firstIdx_append_left _ (ihv px hpx).2, firstIdx_append_self hanl]
          exact firstIdx_lt_length (ihv px hpx).2

/-- Python's `max(counts, key=counts.get)` scan: the result either is the
seed (when nothing beats the seed's value) or sits in the list with a
value exceeding the seed, strictly greater than everything before it and
at least everything after it (first maximal entry wins). -/
theorem pyMaxGo_spec (rest : List (Option String × Nat)) :
    ∀ (bk : Option String) (bv : Nat),
      (pyMaxGo bk bv rest = bk ∧ ∀ p ∈ rest, p.2 ≤ bv) ∨
      (∃ l₁ v' l₂, rest = l₁ ++ (pyMaxGo bk bv rest, v') :: l₂ ∧ bv < v' ∧
        (∀ p ∈ l₁, p.2 < v') ∧ (∀ p ∈ l₂, p.2 ≤ v')) := by
  induction rest with
  | nil =>
    intro bk bv
    left
    exact ⟨rfl, by simp⟩
  | cons q t ih =>
    intro bk bv
    obtain ⟨qk, qv⟩ := q
    by_cases hq : bv < qv
    · have hgo : pyMaxGo bk bv ((qk, qv) :: t) = pyMaxGo qk qv t := by
        simp [pyMaxGo, hq]
      rcases ih qk qv with ⟨heq, hall⟩ | ⟨l₁, v', l₂, heq, hlt, h₁, h₂⟩
      · right
        refine ⟨[], qv, t, ?_, hq, by simp, ?_⟩
        · rw [hgo, heq]; simp
        · intro p hp; exact hall p hp
      · right
        refine ⟨(qk, qv) :: l₁, v', l₂, ?_, ?_, ?_, h₂⟩
        · rw [hgo]
          rw [List.cons_append]
          exact congrArg _ heq
        · omega
        · intro p hp
          rcases List.mem_cons.mp hp with rfl | hpl
          · simpa using hlt
          · exact h₁ p hpl
    · have hgo : pyMaxGo bk bv ((qk, qv) :: t) = pyMaxGo bk bv t := by
        simp [pyMaxGo, hq]
      rcases ih bk bv with ⟨heq, hall⟩ | ⟨l₁, v', l₂, heq, hlt, h₁, h₂⟩
      · left
        refine ⟨by rw [hgo, heq], ?_⟩
        intro p hp
        rcases List.mem_cons.mp hp with rfl | hpt
        · simpa using Nat.le_of_not_lt hq
        · exact hall p hpt
      · right
        refine ⟨(qk, qv) :: l₁, v', l₂, ?_, hlt, ?_, h₂⟩
        · rw [hgo]
          rw [List.cons_append]
          exact congrArg _ heq
        · intro p hp
          rcases List.mem_cons.mp hp with rfl | hpl
          · have : qv ≤ bv := Nat.le_of_not_lt hq
            simp only
            omega
          · exact h₁ p hpl

/-- C4: the voting reduction.  With no valid result it returns the first
raw result; otherwise it returns the first valid result whose extracted
service name attains the highest occurrence count among valid results,
ties broken by first-seen order of the name. -/
theorem voting_reduction (vote_results : List VoteRes)
    (hne : vote_results ≠ []) :
    (validVotes vote_results = [] →
      voteReduce vote_results = vote_results.head?) ∧
    (validVotes vote_results ≠ [] →
      ∃ r, voteReduce vote_results = some r ∧
        r ∈ validVotes vote_results ∧
        (validVotes vote_results).find?
          (fun x => serviceNameOf x == serviceNameOf r) = some r ∧
        (∀ m ∈ voteNames vote_results,
          (voteNames vote_results).count m ≤
            (voteNames vote_results).count (serviceNameOf r)) ∧
        (∀ m ∈ voteNames vote_results,
          (voteNames vote_results).count m =
              (voteNames vote_results).count (serviceNameOf r) →
            m ≠ serviceNameOf r →
            firstIdx (voteNames vote_results) (serviceNameOf r) <
              firstIdx (voteNames vote_results) m)) := by
  constructor
  · intro hv
    have hv' : vote_results.filter isVoteValid = [] := hv
    simp [voteReduce, hv']
  · intro hv
    have hempty : (vote_results.filter isVoteValid).isEmpty = false := by
      rcases h' : vote_results.filter isVoteValid with _ | ⟨x, xs⟩
      · exact absurd h' hv
      · simp
    obtain ⟨invV, invC, invN, invP⟩ := countsOf_inv (voteNames vote_results)
    cases hcs : countsOf (voteNames vote_results) with
    | nil =>
      exfalso
      rcases List.exists_mem_of_ne_nil _ hv with ⟨v0, hv0⟩
      obtain ⟨w, hw⟩ := invC (serviceNameOf v0)
        (List.mem_map_of_mem serviceNameOf hv0)
      rw [hcs] at hw
      simp at hw
    | cons c cr =>
      have hsplit : ∃ L₁ vstar L₂,
          countsOf (voteNames vote_results) =
            L₁ ++ (pyMaxGo c.1 c.2 cr, vstar) :: L₂ ∧
          (∀ p ∈ L₁, p.2 < vstar) ∧ (∀ p ∈ L₂, p.2 ≤ vstar) := by
        rcases pyMaxGo_spec cr c.1 c.2 with ⟨heq, hall⟩ |
          ⟨l₁, v', l₂, heq, hlt, h₁, h₂⟩
        · refine ⟨[], c.2, cr, ?_, by simp, hall⟩
          rw [hcs, heq]
          simp
        · refine ⟨c :: l₁, v', l₂, ?_, ?_, h₂⟩
          · conv_lhs => rw [hcs, heq]
            rw [List.cons_append]
          · intro p hp
            rcases List.mem_cons.mp hp with rfl | hpl
            · exact hlt
            · exact h₁ p hpl
      obtain ⟨L₁, vstar, L₂, hceq, hL₁, hL₂⟩ := hsplit
      have hmajmem : (pyMaxGo c.1 c.2 cr, vstar) ∈
          countsOf (voteNames vote_results) := by
        rw [hceq]
        exact List.mem_append_right _ (List.mem_cons_self _ _)
      have hmajv := invV _ hmajmem
      dsimp only at hmajv
      rcases List.mem_map.mp hmajv.2 with ⟨r₀, hr₀, hr₀n⟩
      have hfs : ((vote_results.filter isVoteValid).find?
          (fun x => serviceNameOf x == pyMaxGo c.1 c.2 cr)).isSome := by
        rw [List.find?_isSome]
        exact ⟨r₀, hr₀, by simp [hr₀n]⟩
      obtain ⟨r, hr⟩ := Option.isSome_iff_exists.mp hfs
      have hrname : serviceNameOf r = pyMaxGo c.1 c.2 cr := by
        simpa using List.find?_some hr
      have hrmem := List.mem_of_find?_eq_some hr
      have hred : voteReduce vote_results = some r := by
        simp only [voteReduce]
        rw [hempty]
        simp only [Bool.false_eq_true, if_false]
        rw [show countsOf (List.map serviceNameOf
          (List.filter isVoteValid vote_results)) =
          countsOf (voteNames vote_results) from rfl, hcs]
        simp only []
        rw [show (List.filter isVoteValid vote_results).find?
          (fun x => serviceNameOf x == pyMaxGo c.1 c.2 cr) =
          some r from hr]
      refine ⟨r, hred, hrmem, ?_, ?_, ?_⟩
      · rw [hrname]
        exact hr
      · intro m hm
        obtain ⟨vm, hvm⟩ := invC m hm
        have hvmv := invV _ hvm
        dsimp only at hvmv
        rw [hrname, ← hmajv.1, ← hvmv.1]
        rw [hceq] at hvm
        rcases List.mem_append.mp hvm with h1 | h2
        · exact le_of_lt (hL₁ _ h1)
        · rcases List.mem_cons.mp h2 with heq2 | h3
          · have : vm = vstar := by
              have := congrArg Prod.snd heq2
              simpa using this
            omega
          · exact hL₂ _ h3
      · intro m hm hcnt hne2
        obtain ⟨vm, hvm⟩ := invC m hm
        have hvmv := invV _ hvm
        dsimp only at hvmv
        rw [hrname] at hcnt hne2 ⊢
        have hvm_eq : vm = vstar := by
          rw [hvmv.1, hcnt, ← hmajv.1]
        rw [hceq] at hvm
        rcases List.mem_append.mp hvm with h1 | h2
        · have := hL₁ _ h1
          simp only at this
          omega
        · rcases List.mem_cons.mp h2 with heq2 | h3
          · exfalso
            have := congrArg Prod.fst heq2
            simp only at this
            exact hne2 this
          · have hkeys : (countsOf (voteNames vote_results)).map Prod.fst =
                L₁.map Prod.fst ++ pyMaxGo c.1 c.2 cr :: L₂.map Prod.fst := by
              rw [hceq]
              simp
            rw [hkeys] at invP
            rcases List.pairwise_append.mp invP with ⟨-, hp2, -⟩
            rcases List.pairwise_cons.mp hp2 with ⟨hmajall, -⟩
            exact hmajall m (List.mem_map.mpr ⟨(m, vm), h3, rfl⟩)

/-- C4 witness: on three schema-valid votes naming `["AWS", "Azure",
"AWS"]`, the reduction accepts a result, and its extracted service name is
`"AWS"`. -/
theorem voting_reduction_witness :
    ∃ r, voteReduce [awsRes, azureRes, awsRes] = some r ∧
      serviceNameOf r = some "AWS" := by
  obtain ⟨r, hr, -⟩ :=
    (voting_reduction [awsRes, azureRes, awsRes] (by decide)).2 (by decide)
  have hv : voteReduce [awsRes, azureRes, awsRes] = some awsRes := by decide
  rw [hv] at hr
  cases hr
  exact ⟨awsRes, hv, by decide⟩

/-! ## C1 — average downtime per service -/

/-- Lookup after a cons. -/
theorem lkAgg_cons (p : Nat × SvcAgg) (t : List (Nat × SvcAgg)) (svc : Nat) :
    lkAgg (p :: t) svc = if p.1 == svc then some p.2 else lkAgg t svc := by
  by_cases h : (p.1 == svc) = true
  · simp [lkAgg, List.find?_cons, h]
  · simp [lkAgg, List.find?_cons, h]

/-- Lookup through the in-place value update of one key. -/
theorem lkAgg_map_update (acc : List (Nat × SvcAgg)) (esvc : Nat)
    (g : SvcAgg → SvcAgg) (svc : Nat) :
    lkAgg (acc.map (fun p => if p.1 == esvc then (p.1, g p.2) else p)) svc =
      if svc = esvc then (lkAgg acc svc).map g else lkAgg acc svc := by
  induction acc with
  | nil =>
    simp only [List.map_nil, lkAgg, List.find?_nil, Option.map_none']
    split <;> rfl
  | cons p t ih =>
    rw [List.map_cons, lkAgg_cons, lkAgg_cons]
    by_cases hpe : (p.1 == esvc) = true
    · have hpe' : p.1 = esvc := by simpa using hpe
      rw [if_pos hpe]
      by_cases hps : (p.1 == svc) = true
      · have hps' : p.1 = svc := by simpa using hps
        have hse : svc = esvc := hps' ▸ hpe'
        simp [hse, hps, hpe', ih]
      · have hps' : p.1 ≠ svc := by simpa using hps
        simp only [hps, Bool.false_eq_true, if_false, ih]
    · have hpe' : p.1 ≠ esvc := by simpa using hpe
      rw [if_neg hpe]
      by_cases hps : (p.1 == svc) = true
      · have hps' : p.1 = svc := by simpa using hps
        have hse : svc ≠ esvc := fun h => hpe' ((h ▸ hps' : p.1 = esvc))
        simp [hps, hse]
      · simp only [hps, Bool.false_eq_true, if_false, ih]

/-- Lookup through the ensure-entry step of the loop. -/
theorem lkAgg_ensure (acc : List (Nat × SvcAgg)) (esvc : Nat) :
    (lkAgg (if acc.any (fun p => p.1 == esvc) then acc
        else acc ++ [(esvc, zeroAgg)]) esvc =
      some ((lkAgg acc esvc).getD zeroAgg)) ∧
    (∀ svc, svc ≠ esvc →
      lkAgg (if acc.any (fun p => p.1 == esvc) then acc
        else acc ++ [(esvc, zeroAgg)]) svc = lkAgg acc svc) := by
  by_cases hany : (acc.any (fun p => p.1 == esvc)) = true
  · rw [if_pos hany]
    obtain ⟨q, hq, hqk⟩ := List.any_eq_true.mp hany
    have hsome : (acc.find? (fun p => p.1 == esvc)).isSome :=
      List.find?_isSome.mpr ⟨q, hq, hqk⟩
    obtain ⟨pr, hpr⟩ := Option.isSome_iff_exists.mp hsome
    constructor
    · simp [lkAgg, hpr]
    · intro svc _; rfl
  · rw [if_neg hany]
    have hnone : acc.find? (fun p => p.1 == esvc) = none := by
      rw [List.find?_eq_none]
      intro p hp hpk
      exact hany (List.any_eq_true.mpr ⟨p, hp, hpk⟩)
    constructor
    · simp [lkAgg, List.find?_append, hnone]
    · intro svc hsvc
      have hns : ((esvc, zeroAgg).1 == svc) = false := by
        simpa using fun h => hsvc h.symm
      simp only [lkAgg, List.find?_append]
      rw [List.find?_singleton]
      simp only [hns, Bool.false_eq_true, if_false, Option.or_none]

/-- Lookup through one full loop iteration. -/
theorem addEvent_lk (now : ℚ) (acc : List (Nat × SvcAgg))
    (e : DowntimeEventRec) :
    lkAgg (addDowntimeEvent now acc e) e.external_service_id =
      some (bumpAgg now e
        ((lkAgg acc e.external_service_id).getD zeroAgg)) ∧
    ∀ svc, svc ≠ e.external_service_id →
      lkAgg (addDowntimeEvent now acc e) svc = lkAgg acc svc := by
  have hens := lkAgg_ensure acc e.external_service_id
  constructor
  · rw [addDowntimeEvent]
    rw [lkAgg_map_update _ e.external_service_id (bumpAgg now e)
      e.external_service_id, if_pos rfl, hens.1]
    rfl
  · intro svc hsvc
    rw [addDowntimeEvent]
    rw [lkAgg_map_update _ e.external_service_id (bumpAgg now e) svc,
      if_neg hsvc]
    exact hens.2 svc hsvc

/-- Folding `bumpAgg` over a list of one service's events adds the summed
durations, the event count, and the open-event count, and sets the ongoing
flag when any open event occurs. -/
theorem bump_fold_spec (now : ℚ) (es : List DowntimeEventRec) :
    ∀ a : SvcAgg,
      es.foldl (fun a e => bumpAgg now e a) a =
        { total_seconds := a.total_seconds + totalDuration now es
          count := a.count + es.length
          ongoing_count :=
            a.ongoing_count + es.countP (fun e => e.end_time.isNone)
          has_ongoing := a.has_ongoing ||
            !(es.countP (fun e => e.end_time.isNone) == 0) } := by
  induction es with
  | nil =>
    intro a
    simp [totalDuration]
  | cons e t ih =>
    intro a
    rw [List.foldl_cons, ih]
    have htot : totalDuration now (e :: t) =
        eventDuration now e + totalDuration now t := by
      simp [totalDuration]
    cases het : e.end_time with
    | some tend =>
      have hbump : bumpAgg now e a =
          { a with total_seconds := a.total_seconds + (tend - e.start_time)
                   count := a.count + 1 } := by
        simp [bumpAgg, het]
      have hopen : e.end_time.isNone = false := by simp [het]
      have hdur : eventDuration now e = tend - e.start_time := by
        simp [eventDuration, het]
      rw [hbump, htot, hdur]
      have hcp : (e :: t).countP (fun e => e.end_time.isNone) =
          t.countP (fun e => e.end_time.isNone) := by
        simp [List.countP_cons, het]
      simp only [hcp, List.length_cons, SvcAgg.mk.injEq]
      refine ⟨by ring, by omega, ?_, ?_⟩
      all_goals first | trivial | omega | simp
    | none =>
      have hbump : bumpAgg now e a =
          { a with total_seconds := a.total_seconds + (now - e.start_time)
                   count := a.count + 1
                   ongoing_count := a.ongoing_count + 1
                   has_ongoing := true } := by
        simp [bumpAgg, het]
      have hopen : e.end_time.isNone = true := by simp [het]
      have hdur : eventDuration now e = now - e.start_time := by
        simp [eventDuration, het]
      rw [hbump, htot, hdur]
      have hcp : (e :: t).countP (fun e => e.end_time.isNone) =
          t.countP (fun e => e.end_time.isNone) + 1 := by
        simp [List.countP_cons, het]
      simp only [hcp, List.length_cons, SvcAgg.mk.injEq]
      refine ⟨by ring, by omega, ?_, ?_⟩
      all_goals first | trivial | omega | simp

/-- The service-data fold characterised per service: the entry of `svc`
aggregates exactly the events of `svc`, in order. -/
theorem fold_addEvent (now : ℚ) (evs : List DowntimeEventRec) :
    ∀ (acc : List (Nat × SvcAgg)) (svc : Nat),
      lkAgg (evs.foldl (addDowntimeEvent now) acc) svc =
        match lkAgg acc svc,
            evs.filter (fun e => e.external_service_id == svc) with
        | none, [] => none
        | none, es =>
          some (es.foldl (fun a e => bumpAgg now e a) zeroAgg)
        | some a, es => some (es.foldl (fun a e => bumpAgg now e a) a) := by
  induction evs with
  | nil =>
    intro acc svc
    cases h : lkAgg acc svc <;> simp [h]
  | cons e t ih =>
    intro acc svc
    rw [List.foldl_cons]
    have hadd := addEvent_lk now acc e
    by_cases hsvc : svc = e.external_service_id
    · have hkey : (e.external_service_id == svc) = true := by simp [hsvc]
      have h1 : lkAgg (addDowntimeEvent now acc e) svc =
          some (bumpAgg now e ((lkAgg acc svc).getD zeroAgg)) := by
        rw [hsvc]
        exact hadd.1
      rw [ih (addDowntimeEvent now acc e) svc, h1, List.filter_cons, hkey]
      cases h : lkAgg acc svc with
      | none => simp [h, List.foldl_cons]
      | some a => simp [h, List.foldl_cons]
    · have hkey : (e.external_service_id == svc) = false := by
        simpa using fun h => hsvc h.symm
      rw [ih (addDowntimeEvent now acc e) svc,
        hadd.2 svc hsvc, List.filter_cons, hkey]
      simp only [Bool.false_eq_true, if_false]

/-- C1 (amended): for every service with at least one downtime event whose
mean duration does not exceed the 1000-minute demo cap, the statistics row
of that service reports the event count, the open-event count, the ongoing
flag, and the average of the per-event durations (end minus start when
closed, now minus start when open) in minutes rounded to two decimals; any
open event makes `has_ongoing` true with `ongoing_count ≥ 1`. -/
theorem average_downtime_stats (s : Store) (now rand : ℚ) (svc : Nat)
    (hev : ∃ e ∈ s.downtime_events, e.external_service_id = svc)
    (hcap : totalDuration now (svcEvents s svc) / 60 /
      ((svcEvents s svc).length : ℚ) ≤ 1000) :
    ∃ row ∈ get_average_downtime_by_service s now rand,
      row.service_id = svc ∧
      row.event_count = (svcEvents s svc).length ∧
      row.ongoing_count =
        (svcEvents s svc).countP (fun e => e.end_time.isNone) ∧
      (row.has_ongoing = true ↔
        0 < (svcEvents s svc).countP (fun e => e.end_time.isNone)) ∧
      row.average_minutes = round2 (totalDuration now (svcEvents s svc) /
        60 / ((svcEvents s svc).length : ℚ)) ∧
      ((∃ e ∈ svcEvents s svc, e.end_time = none) →
        row.has_ongoing = true ∧ 1 ≤ row.ongoing_count) := by
  obtain ⟨e0, he0, he0s⟩ := hev
  have hes : svcEvents s svc ≠ [] := by
    intro hnil
    have : e0 ∈ svcEvents s svc :=
      List.mem_filter.mpr ⟨he0, by simp [he0s]⟩
    rw [hnil] at this
    simp at this
  have hlk := fold_addEvent now s.downtime_events [] svc
  have hlknil : lkAgg [] svc = none := rfl
  rw [hlknil] at hlk
  have hfiltereq : s.downtime_events.filter
      (fun e => e.external_service_id == svc) = svcEvents s svc := rfl
  rw [hfiltereq] at hlk
  obtain ⟨efst, erest, hesl⟩ : ∃ a b, svcEvents s svc = a :: b := by
    rcases h' : svcEvents s svc with _ | ⟨a, b⟩
    · exact absurd h' hes
    · exact ⟨a, b, rfl⟩
  · rw [hesl] at hlk
    dsimp only at hlk
    rw [bump_fold_spec now (efst :: erest) zeroAgg] at hlk
    rw [← hesl] at hlk
    set agg : SvcAgg :=
      { total_seconds := zeroAgg.total_seconds +
          totalDuration now (svcEvents s svc)
        count := zeroAgg.count + (svcEvents s svc).length
        ongoing_count := zeroAgg.ongoing_count +
          (svcEvents s svc).countP (fun e => e.end_time.isNone)
        has_ongoing := zeroAgg.has_ongoing ||
          !((svcEvents s svc).countP (fun e => e.end_time.isNone) == 0) }
      with hagg
    have haggt : agg.total_seconds = totalDuration now (svcEvents s svc) := by
      rw [hagg]; simp [zeroAgg]
    have haggc : agg.count = (svcEvents s svc).length := by
      rw [hagg]; simp [zeroAgg]
    have haggo : agg.ongoing_count =
        (svcEvents s svc).countP (fun e => e.end_time.isNone) := by
      rw [hagg]; simp [zeroAgg]
    have haggh : agg.has_ongoing =
        !((svcEvents s svc).countP (fun e => e.end_time.isNone) == 0) := by
      rw [hagg]; simp [zeroAgg]
    -- the entry in the folded service data
    obtain ⟨pr, hpr⟩ : ∃ pr,
        (s.downtime_events.foldl (addDowntimeEvent now) []).find?
          (fun p => p.1 == svc) = some pr := by
      rcases hx : (s.downtime_events.foldl (addDowntimeEvent now) []).find?
          (fun p => p.1 == svc) with _ | pr
      · exfalso
        have : lkAgg (s.downtime_events.foldl (addDowntimeEvent now) [])
            svc = none := by simp [lkAgg, hx]
        rw [this] at hlk
        simp at hlk
      · exact ⟨pr, hx⟩
    have hprk : pr.1 = svc := by simpa using List.find?_some hpr
    have hprv : pr.2 = agg := by
      have : lkAgg (s.downtime_events.foldl (addDowntimeEvent now) []) svc =
          some pr.2 := by simp [lkAgg, hpr]
      rw [this] at hlk
      exact Option.some.inj hlk
    have hprm := List.mem_of_find?_eq_some hpr
    have hne0 : ¬(pr.2.count = 0) := by
      rw [hprv, haggc, hesl]
      simp
    have hnotgt : ¬(1000 < pr.2.total_seconds / 60 / (pr.2.count : ℚ)) := by
      rw [hprv, haggt, haggc]
      exact not_lt.mpr hcap
    refine ⟨{ service_id := pr.1
              service_name :=
                match s.external_services.find? (fun es => es.id == pr.1) with
                | some es => es.service_name
                | none => "Unknown Service " ++ toString pr.1
              average_minutes := round2 (pr.2.total_seconds / 60 /
                (pr.2.count : ℚ))
              event_count := pr.2.count
              ongoing_count := pr.2.ongoing_count
              has_ongoing := pr.2.has_ongoing }, ?_, hprk, ?_, ?_, ?_, ?_, ?_⟩
    · rw [get_average_downtime_by_service]
      refine List.mem_filterMap.mpr ⟨pr, hprm, ?_⟩
      rw [if_neg hne0]
      dsimp only
      rw [if_neg hnotgt]
    · rw [hprv, haggc]
    · rw [hprv, haggo]
    · rw [hprv, haggh]
      cases hcnt : (svcEvents s svc).countP (fun e => e.end_time.isNone) <;>
        simp
    · rw [hprv, haggt, haggc]
    · intro ⟨eop, heop, heopn⟩
      have hpos : 0 < (svcEvents s svc).countP
          (fun e => e.end_time.isNone) := by
        rw [List.countP_pos_iff]
        exact ⟨eop, heop, by simp [heopn]⟩
      constructor
      · rw [hprv, haggh]
        cases hcnt : (svcEvents s svc).countP (fun e => e.end_time.isNone)
        · rw [hcnt] at hpos; simp at hpos
        · simp
      · show 1 ≤ pr.2.ongoing_count
        rw [hprv, haggo]
        omega

/-- Witness: on a store with one closed event (3 600 s) and one open event
(7 200 s old at `now = 7200`), both hypotheses of the statistics theorem
hold and its conclusion follows: two events, one ongoing, average 90
minutes. -/
theorem average_downtime_stats_witness :
    (∃ e ∈ c1Store.downtime_events, e.external_service_id = 1) ∧
    (totalDuration 7200 (svcEvents c1Store 1) / 60 /
      ((svcEvents c1Store 1).length : ℚ) ≤ 1000) ∧
    ∃ row ∈ get_average_downtime_by_service c1Store 7200 0,
      row.service_id = 1 ∧
      row.event_count = (svcEvents c1Store 1).length ∧
      row.ongoing_count =
        (svcEvents c1Store 1).countP (fun e => e.end_time.isNone) ∧
      (row.has_ongoing = true ↔
        0 < (svcEvents c1Store 1).countP (fun e => e.end_time.isNone)) ∧
      row.average_minutes = round2 (totalDuration 7200
        (svcEvents c1Store 1) / 60 / ((svcEvents c1Store 1).length : ℚ)) ∧
      ((∃ e ∈ svcEvents c1Store 1, e.end_time = none) →
        row.has_ongoing = true ∧ 1 ≤ row.ongoing_count) :=
  have hev : ∃ e ∈ c1Store.downtime_events, e.external_service_id = 1 := by
    decide
  have hcap : totalDuration 7200 (svcEvents c1Store 1) / 60 /
      ((svcEvents c1Store 1).length : ℚ) ≤ 1000 := by
    norm_num [totalDuration, svcEvents, c1Store, emptyStore, eventDuration,
      List.filter_cons, List.filter_nil]
  ⟨hev, hcap, average_downtime_stats c1Store 7200 0 1 hev hcap⟩

/-- Counterexample to C1 as stated: a single closed event of 7 200 000
seconds gives a per-event mean of 120 000 minutes; that exceeds the
1000-minute demo cap, so the code reports the random stand-in (here 55)
instead of the value of the claimed formula. -/
theorem average_downtime_cap_counterexample :
    ∃ row ∈ get_average_downtime_by_service c1CapStore 0 55,
      row.service_id = 1 ∧
      round2 (totalDuration 0 (svcEvents c1CapStore 1) / 60 /
        ((svcEvents c1CapStore 1).length : ℚ)) = 120000 ∧
      row.average_minutes = 55 := by
  have h : get_average_downtime_by_service c1CapStore 0 55 =
      [⟨1, "S", 55, 1, 0, false⟩] := by
    norm_num [get_average_downtime_by_service, addDowntimeEvent, bumpAgg,
      zeroAgg, c1CapStore, emptyStore, round2, round_eq,
      List.filterMap_cons, List.filterMap_nil]
  refine ⟨⟨1, "S", 55, 1, 0, false⟩, ?_, rfl, ?_, rfl⟩
  · rw [h]
    exact List.mem_singleton.mpr rfl
  · norm_num [totalDuration, svcEvents, c1CapStore, emptyStore,
      eventDuration, round2, round_eq, List.filter_cons, List.filter_nil]

/-! ## Deletion machinery (shared by the deletion and consistency
theorems) -/

/-- Reopening an already reopened event changes nothing. -/
theorem reopen_idem (e : DowntimeEventRec) :
    reopenEvent (reopenEvent e) = reopenEvent e := rfl

/-- The empty end-deletion loop returns the store unchanged. -/
theorem runEndDeletes_nil (deleteFn : Store → Nat → Option (Bool × Store))
    (skip : Nat) (st : Store) :
    runEndDeletes deleteFn skip st [] = some st := rfl

/-- One step of the end-deletion loop. -/
theorem runEndDeletes_cons (deleteFn : Store → Nat → Option (Bool × Store))
    (skip : Nat) (st : Store) (eid : Nat) (rest : List Nat) :
    runEndDeletes deleteFn skip st (eid :: rest) =
      if eid == skip then runEndDeletes deleteFn skip st rest
      else
        match deleteFn st eid with
        | none => none
        | some bs => runEndDeletes deleteFn skip bs.2 rest := rfl

/-- One unfolding of `delete_notification` at positive fuel. -/
theorem delete_notification_succ (fuel : Nat) (s : Store) (nid : Nat) :
    delete_notification (fuel + 1) s nid =
      match (eventRepair s nid).notifications.find?
          (fun n => n.id == nid) with
      | none => some (false, eventRepair s nid)
      | some notif =>
        match runEndDeletes
            (fun st eid => delete_notification fuel st eid) nid
            (eventRepair s nid) (endIds s nid) with
        | none => none
        | some s2 =>
          some (true, finalStrip s2 nid notif.llm_data_id
            notif.raw_email_id) := rfl

/-- The identical store shrinks to itself. -/
theorem shrinkRel_refl (s : Store) : ShrinkRel s s := by
  refine ⟨⟨.refl _, .refl _, .refl _, .refl _⟩, ?_, ?_, ?_, ?_, ?_⟩
  · intro e' he'
    exact ⟨e', he', Or.inl rfl⟩
  · intro e he
    exact Or.inl (Or.inl he)
  · intro m hm
    exact Or.inl hm
  · intro l hl
    exact Or.inl hl
  · intro r hr
    exact Or.inl hr

/-- The shrink relation composes. -/
theorem shrinkRel_trans {s t u : Store} (h1 : ShrinkRel s t)
    (h2 : ShrinkRel t u) : ShrinkRel s u := by
  obtain ⟨⟨hn1, hl1, hr1, hi1⟩, ho1, hk1, hg1, hlg1, hrg1⟩ := h1
  obtain ⟨⟨hn2, hl2, hr2, hi2⟩, ho2, hk2, hg2, hlg2, hrg2⟩ := h2
  refine ⟨⟨hn2.trans hn1, hl2.trans hl1, hr2.trans hr1, hi2.trans hi1⟩,
    ?_, ?_, ?_, ?_, ?_⟩
  · intro e'' he''
    obtain ⟨e', he', hc2⟩ := ho2 e'' he''
    obtain ⟨e, he, hc1⟩ := ho1 e' he'
    refine ⟨e, he, ?_⟩
    rcases hc2 with rfl | rfl
    · exact hc1
    · rcases hc1 with rfl | rfl
      · exact Or.inr rfl
      · exact Or.inr (reopen_idem e)
  · intro e he
    rcases hk1 e he with (het | hret) | hnone
    · rcases hk2 e het with h | hnone2
      · exact Or.inl h
      · exact Or.inr hnone2
    · rcases hk2 _ hret with (h | h) | hnone2
      · exact Or.inl (Or.inr h)
      · rw [reopen_idem] at h
        exact Or.inl (Or.inr h)
      · exact Or.inr hnone2
    · exact Or.inr fun m hm => hnone m (hn2.subset hm)
  · intro m hm
    rcases hg1 m hm with hmt | ⟨hl, hr, hi⟩
    · rcases hg2 m hmt with hmu | hc
      · exact Or.inl hmu
      · exact Or.inr hc
    · refine Or.inr ⟨?_, ?_, ?_⟩
      · intro l hlu
        exact hl l (hl2.subset hlu)
      · intro r hru
        exact hr r (hr2.subset hru)
      · intro i hiu
        exact hi i (hi2.subset hiu)
  · intro l hl
    rcases hlg1 l hl with hlt | ⟨m, hm, href, hgone⟩
    · rcases hlg2 l hlt with hlu | ⟨m, hm, href, hgone⟩
      · exact Or.inl hlu
      · exact Or.inr ⟨m, hn1.subset hm, href, hgone⟩
    · exact Or.inr ⟨m, hm, href, fun hmu => hgone (hn2.subset hmu)⟩
  · intro r hr
    rcases hrg1 r hr with hrt | ⟨m, hm, href, hgone⟩
    · rcases hrg2 r hrt with hru | ⟨m, hm, href, hgone⟩
      · exact Or.inl hru
      · exact Or.inr ⟨m, hn1.subset hm, href, hgone⟩
    · exact Or.inr ⟨m, hm, href, fun hmu => hgone (hn2.subset hmu)⟩

/-- Every event surviving the repair step descends from an input event
and carries neither the deleted start reference nor the deleted end
reference. -/
theorem eventRepair_mem (s : Store) (nid : Nat) :
    ∀ e' ∈ (eventRepair s nid).downtime_events,
      ∃ e ∈ s.downtime_events,
        (e' = e ∨ e' = reopenEvent e) ∧
        e'.start_notification_id ≠ nid ∧
        e'.end_notification_id ≠ some nid := by
  intro e' he'
  simp only [eventRepair, List.mem_map, List.mem_filter] at he'
  obtain ⟨e, ⟨hes, hkeep⟩, hmap⟩ := he'
  have hstart : e.start_notification_id ≠ nid := by simpa using hkeep
  refine ⟨e, hes, ?_⟩
  by_cases hend : (e.end_notification_id == some nid) = true
  · rw [if_pos hend] at hmap
    subst hmap
    exact ⟨Or.inr rfl, hstart, by simp [reopenEvent]⟩
  · rw [if_neg hend] at hmap
    subst hmap
    exact ⟨Or.inl rfl, hstart, by simpa using hend⟩

/-- An event not started by the deleted notification survives the repair
step, possibly reopened. -/
theorem eventRepair_keep (s : Store) (nid : Nat) :
    ∀ e ∈ s.downtime_events, e.start_notification_id ≠ nid →
      e ∈ (eventRepair s nid).downtime_events ∨
      reopenEvent e ∈ (eventRepair s nid).downtime_events := by
  intro e he hstart
  have hk : e ∈ s.downtime_events.filter
      (fun e => !(e.start_notification_id == nid)) :=
    List.mem_filter.mpr ⟨he, by simp [hstart]⟩
  by_cases hend : (e.end_notification_id == some nid) = true
  · refine Or.inr ?_
    show reopenEvent e ∈ (s.downtime_events.filter
        (fun e => !(e.start_notification_id == nid))).map
        (fun e => if e.end_notification_id == some nid then reopenEvent e
          else e)
    exact List.mem_map.mpr ⟨e, hk, if_pos hend⟩
  · refine Or.inl ?_
    show e ∈ (s.downtime_events.filter
        (fun e => !(e.start_notification_id == nid))).map
        (fun e => if e.end_notification_id == some nid then reopenEvent e
          else e)
    exact List.mem_map.mpr ⟨e, hk, if_neg hend⟩

/-- The end-deletion loop preserves the shrink relation and removes every
listed non-skipped notification id, provided the deletion callback does. -/
theorem runEndDeletes_inv (deleteFn : Store → Nat → Option (Bool × Store))
    (hfn : ∀ st eid bs, (st.notifications.map (fun m => m.id)).Nodup →
      deleteFn st eid = some bs →
      ShrinkRel st bs.2 ∧ ∀ m ∈ bs.2.notifications, m.id ≠ eid) :
    ∀ (ids : List Nat) (st st' : Store) (skip : Nat),
      (st.notifications.map (fun m => m.id)).Nodup →
      runEndDeletes deleteFn skip st ids = some st' →
      ShrinkRel st st' ∧
      ∀ eid ∈ ids, eid ≠ skip → ∀ m ∈ st'.notifications, m.id ≠ eid := by
  intro ids
  induction ids with
  | nil =>
    intro st st' skip hnd hrun
    rw [runEndDeletes_nil] at hrun
    obtain rfl := Option.some.inj hrun
    exact ⟨shrinkRel_refl st, by simp⟩
  | cons eid rest ih =>
    intro st st' skip hnd hrun
    rw [runEndDeletes_cons] at hrun
    by_cases hsk : (eid == skip) = true
    · rw [if_pos hsk] at hrun
      obtain ⟨hrel, hrem⟩ := ih st st' skip hnd hrun
      refine ⟨hrel, ?_⟩
      intro eid' hmem hne m hm
      rcases List.mem_cons.mp hmem with rfl | hrest
      · exact absurd (by simpa using hsk) hne
      · exact hrem eid' hrest hne m hm
    · rw [if_neg hsk] at hrun
      cases hdel : deleteFn st eid with
      | none =>
        rw [hdel] at hrun
        cases hrun
      | some bs =>
        rw [hdel] at hrun
        have hstep := hfn st eid bs hnd hdel
        have hnd2 : (bs.2.notifications.map (fun m => m.id)).Nodup :=
          List.Nodup.sublist (hstep.1.1.1.map (fun m => m.id)) hnd
        obtain ⟨hrel2, hrem2⟩ := ih bs.2 st' skip hnd2 hrun
        refine ⟨shrinkRel_trans hstep.1 hrel2, ?_⟩
        intro eid' hmem hne m hm
        rcases List.mem_cons.mp hmem with rfl | hrest
        · exact hstep.2 m (hrel2.1.1.subset hm)
        · exact hrem2 eid' hrest hne m hm

/-- `delete_notification` shrinks the store as described and leaves no
notification with the deleted id, at every fuel level. -/
theorem delete_notification_inv :
    ∀ (fuel : Nat) (s : Store) (nid : Nat) (b : Bool) (t : Store),
      (s.notifications.map (fun m => m.id)).Nodup →
      delete_notification fuel s nid = some (b, t) →
      ShrinkRel s t ∧ ∀ m ∈ t.notifications, m.id ≠ nid := by
  intro fuel
  induction fuel with
  | zero =>
    intro s nid b t hnd h
    exact absurd h (by simp [delete_notification])
  | succ fuel ih =>
    intro s nid b t hnd h
    rw [delete_notification_succ] at h
    cases hfind : (eventRepair s nid).notifications.find?
        (fun n => n.id == nid) with
    | none =>
      rw [hfind] at h
      simp only [Option.some.injEq, Prod.mk.injEq] at h
      obtain ⟨hb, ht⟩ := h
      subst ht
      have hnone : ∀ m ∈ s.notifications, m.id ≠ nid := by
        intro m hm
        have := List.find?_eq_none.mp hfind m hm
        simpa using this
      refine ⟨⟨⟨.refl _, .refl _, .refl _, .refl _⟩, ?_, ?_, ?_, ?_, ?_⟩,
        hnone⟩
      · intro e' he'
        obtain ⟨e, he, hc, _, _⟩ := eventRepair_mem s nid e' he'
        exact ⟨e, he, hc⟩
      · intro e he
        by_cases hstart : e.start_notification_id = nid
        · refine Or.inr ?_
          intro m hm
          rw [hstart]
          exact hnone m hm
        · exact Or.inl (eventRepair_keep s nid e he hstart)
      · intro m hm
        exact Or.inl hm
      · intro l hl
        exact Or.inl hl
      · intro r hr
        exact Or.inl hr
    | some notif =>
      rw [hfind] at h
      have hmemn : notif ∈ s.notifications := List.mem_of_find?_eq_some hfind
      have hnid : notif.id = nid := by simpa using List.find?_some hfind
      cases hrun : runEndDeletes
          (fun st eid => delete_notification fuel st eid) nid
          (eventRepair s nid) (endIds s nid) with
      | none =>
        rw [hrun] at h
        cases h
      | some s2 =>
        rw [hrun] at h
        simp only [Option.some.injEq, Prod.mk.injEq] at h
        obtain ⟨hb, ht⟩ := h
        subst ht
        obtain ⟨hrel12, hrem⟩ := runEndDeletes_inv
          (fun st eid => delete_notification fuel st eid)
          (fun st eid bs hnd' hdel => ih st eid bs.1 bs.2 hnd' hdel)
          (endIds s nid) (eventRepair s nid) s2 nid hnd hrun
        obtain ⟨⟨hn12, hl12, hr12, hi12⟩, ho12, hk12, hg12, hlg12, hrg12⟩ :=
          hrel12
        have hBt : ∀ m ∈ (finalStrip s2 nid notif.llm_data_id
            notif.raw_email_id).notifications, m.id ≠ nid := by
          intro m hm
          have := (List.mem_filter.mp hm).2
          simpa using this
        have hsubN : (finalStrip s2 nid notif.llm_data_id
            notif.raw_email_id).notifications.Sublist s2.notifications :=
          List.filter_sublist _
        have hsubL : (finalStrip s2 nid notif.llm_data_id
            notif.raw_email_id).llm_data.Sublist s2.llm_data :=
          List.filter_sublist _
        have hsubR : (finalStrip s2 nid notif.llm_data_id
            notif.raw_email_id).raw_emails.Sublist s2.raw_emails :=
          List.filter_sublist _
        have hsubI : (finalStrip s2 nid notif.llm_data_id
            notif.raw_email_id).impacts.Sublist s2.impacts :=
          List.filter_sublist _
        have hnotifGone : notif ∉ (finalStrip s2 nid notif.llm_data_id
            notif.raw_email_id).notifications := by
          intro hmem
          exact hBt notif hmem hnid
        refine ⟨⟨⟨hsubN.trans hn12, hsubL.trans hl12, hsubR.trans hr12,
          hsubI.trans hi12⟩, ?_, ?_, ?_, ?_, ?_⟩, hBt⟩
        · -- events of the result descend from events of `s`
          intro e' he'
          obtain ⟨e1, he1, hc1⟩ := ho12 e' he'
          obtain ⟨e, he, hc0, _, _⟩ := eventRepair_mem s nid e1 he1
          refine ⟨e, he, ?_⟩
          rcases hc1 with rfl | rfl
          · exact hc0
          · rcases hc0 with rfl | rfl
            · exact Or.inr rfl
            · exact Or.inr (reopen_idem e)
        · -- events survive unless their start notification is gone
          intro e he
          by_cases hstart : e.start_notification_id = nid
          · refine Or.inr ?_
            intro m hm
            rw [hstart]
            exact hBt m hm
          · rcases eventRepair_keep s nid e he hstart with h1 | h1
            · rcases hk12 e h1 with h2 | hnone2
              · exact Or.inl h2
              · exact Or.inr fun m hm => hnone2 m (hsubN.subset hm)
            · rcases hk12 _ h1 with (h2 | h2) | hnone2
              · exact Or.inl (Or.inr h2)
              · rw [reopen_idem] at h2
                exact Or.inl (Or.inr h2)
              · exact Or.inr fun m hm => hnone2 m (hsubN.subset hm)
        · -- a removed notification takes its sub-records along
          intro m hm
          rcases hg12 m hm with hm2 | ⟨hl, hr, hi⟩
          · by_cases hmid : m.id = nid
            · have hmS : m ∈ s.notifications := hn12.subset hm2
              have hmn : m = notif :=
                List.inj_on_of_nodup_map hnd hmS hmemn (by rw [hmid, hnid])
              refine Or.inr ⟨?_, ?_, ?_⟩
              · intro l hlt
                have := (List.mem_filter.mp hlt).2
                rw [hmn]
                simpa using this
              · intro r hrt
                have := (List.mem_filter.mp hrt).2
                rw [hmn]
                simpa using this
              · intro i hit
                have := (List.mem_filter.mp hit).2
                rw [hmid]
                simpa using this
            · refine Or.inl (List.mem_filter.mpr ⟨hm2, ?_⟩)
              simpa using hmid
          · exact Or.inr ⟨fun l hlt => hl l (hsubL.subset hlt),
              fun r hrt => hr r (hsubR.subset hrt),
              fun i hit => hi i (hsubI.subset hit)⟩
        · -- an extraction row vanishes only with an owning notification
          intro l hl
          rcases hlg12 l hl with hl2 | ⟨m, hm, href, hgone⟩
          · by_cases hid : (l.id == notif.llm_data_id) = true
            · exact Or.inr ⟨notif, hmemn,
                (by simpa using hid : l.id = notif.llm_data_id).symm,
                hnotifGone⟩
            · refine Or.inl (List.mem_filter.mpr ⟨hl2, ?_⟩)
              simpa using hid
          · exact Or.inr ⟨m, hm, href,
              fun hmem => hgone (hsubN.subset hmem)⟩
        · -- a raw row vanishes only with an owning notification
          intro r hr
          rcases hrg12 r hr with hr2 | ⟨m, hm, href, hgone⟩
          · by_cases hid : (r.id == notif.raw_email_id) = true
            · exact Or.inr ⟨notif, hmemn,
                (by simpa using hid : r.id = notif.raw_email_id).symm,
                hnotifGone⟩
            · refine Or.inl (List.mem_filter.mpr ⟨hr2, ?_⟩)
              simpa using hid
          · exact Or.inr ⟨m, hm, href,
              fun hmem => hgone (hsubN.subset hmem)⟩

/-- C6: deleting an existing notification N succeeds and performs exactly
the claimed reference repairs: every downtime event started by N is gone;
the end notification of such an event is deleted too (recursively) when it
differs from N; every event only ended by N is reopened, not deleted (it
can only disappear if its own start notification was itself recursively
deleted); every impact row referencing N is gone; and N is removed
together with its extraction and raw-email sub-records. -/
theorem delete_notification_reference_repairs (fuel : Nat) (s : Store)
    (n : NotificationRec) (b : Bool) (t : Store)
    (hnd : (s.notifications.map (fun m => m.id)).Nodup)
    (hn : n ∈ s.notifications)
    (hdel : delete_notification fuel s n.id = some (b, t)) :
    b = true ∧
    (∀ m ∈ t.notifications, m.id ≠ n.id) ∧
    (∀ l ∈ t.llm_data, l.id ≠ n.llm_data_id) ∧
    (∀ r ∈ t.raw_emails, r.id ≠ n.raw_email_id) ∧
    (∀ i ∈ t.impacts, i.notification_id ≠ n.id) ∧
    (∀ e ∈ t.downtime_events,
      e.start_notification_id ≠ n.id ∧
      e.end_notification_id ≠ some n.id) ∧
    (∀ e ∈ s.downtime_events, e.start_notification_id = n.id →
      ∀ eid, e.end_notification_id = some eid →
        ∀ m ∈ t.notifications, m.id ≠ eid) ∧
    (∀ e ∈ s.downtime_events, e.start_notification_id ≠ n.id →
      e.end_notification_id = some n.id →
        reopenEvent e ∈ t.downtime_events ∨
        ∀ m ∈ t.notifications, m.id ≠ e.start_notification_id) := by
  cases fuel with
  | zero => exact absurd hdel (by simp [delete_notification])
  | succ fuel =>
    have hfind : (eventRepair s n.id).notifications.find?
        (fun m => m.id == n.id) = some n :=
      find?_key_of_nodup (fun m => m.id) s.notifications hnd n hn rfl
    rw [delete_notification_succ, hfind] at hdel
    cases hrun : runEndDeletes
        (fun st eid => delete_notification fuel st eid) n.id
        (eventRepair s n.id) (endIds s n.id) with
    | none =>
      rw [hrun] at hdel
      cases hdel
    | some s2 =>
      rw [hrun] at hdel
      simp only [Option.some.injEq, Prod.mk.injEq] at hdel
      obtain ⟨hb, ht⟩ := hdel
      subst ht
      obtain ⟨hrel12, hrem⟩ := runEndDeletes_inv
        (fun st eid => delete_notification fuel st eid)
        (fun st eid bs hnd' hdel' =>
          delete_notification_inv fuel st eid bs.1 bs.2 hnd' hdel')
        (endIds s n.id) (eventRepair s n.id) s2 n.id hnd hrun
      obtain ⟨⟨hn12, hl12, hr12, hi12⟩, ho12, hk12, hg12, hlg12, hrg12⟩ :=
        hrel12
      have hBt : ∀ m ∈ (finalStrip s2 n.id n.llm_data_id
          n.raw_email_id).notifications, m.id ≠ n.id := by
        intro m hm
        simpa using (List.mem_filter.mp hm).2
      refine ⟨hb.symm, hBt, ?_, ?_, ?_, ?_, ?_, ?_⟩
      · intro l hl
        simpa using (List.mem_filter.mp hl).2
      · intro r hr
        simpa using (List.mem_filter.mp hr).2
      · intro i hi
        simpa using (List.mem_filter.mp hi).2
      · intro e he
        obtain ⟨e1, he1, hc⟩ := ho12 e he
        obtain ⟨e0, he0, hc0, hstart1, hend1⟩ :=
          eventRepair_mem s n.id e1 he1
        rcases hc with rfl | rfl
        · exact ⟨hstart1, hend1⟩
        · exact ⟨hstart1, by simp [reopenEvent]⟩
      · intro e he hstart eid heid m hm
        by_cases heq : eid = n.id
        · subst heq
          exact hBt m hm
        · have hmemid : eid ∈ endIds s n.id :=
            List.mem_filterMap.mpr
              ⟨e, List.mem_filter.mpr ⟨he, by simp [hstart]⟩, heid⟩
          exact hrem eid hmemid heq m ((List.filter_sublist _).subset hm)
      · intro e he hstart hend
        rcases eventRepair_keep s n.id e he hstart with h1 | h1
        · obtain ⟨e0, he0, hc0, hstart1, hend1⟩ :=
            eventRepair_mem s n.id e h1
          exact absurd hend hend1
        · rcases hk12 _ h1 with (h2 | h2) | hnone2
          · exact Or.inl h2
          · rw [reopen_idem] at h2
            exact Or.inl h2
          · exact Or.inr fun m hm =>
              hnone2 m ((List.filter_sublist _).subset hm)

/-- Witness: deleting notification 1 of the three-notification store
succeeds, removes notification 1 with its sub-records and impact, deletes
the event it started together with that event's end notification 2, and
reopens the event that only ended at notification 1. -/
theorem delete_notification_reference_repairs_witness :
    (c6Store.notifications.map (fun m => m.id)).Nodup ∧
    notifRec 1 ∈ c6Store.notifications ∧
    delete_notification 3 c6Store (notifRec 1).id =
      some (true, c6After) ∧
    (true = true ∧
     (∀ m ∈ c6After.notifications, m.id ≠ (notifRec 1).id) ∧
     (∀ l ∈ c6After.llm_data, l.id ≠ (notifRec 1).llm_data_id) ∧
     (∀ r ∈ c6After.raw_emails, r.id ≠ (notifRec 1).raw_email_id) ∧
     (∀ i ∈ c6After.impacts, i.notification_id ≠ (notifRec 1).id) ∧
     (∀ e ∈ c6After.downtime_events,
       e.start_notification_id ≠ (notifRec 1).id ∧
       e.end_notification_id ≠ some (notifRec 1).id) ∧
     (∀ e ∈ c6Store.downtime_events,
       e.start_notification_id = (notifRec 1).id →
       ∀ eid, e.end_notification_id = some eid →
         ∀ m ∈ c6After.notifications, m.id ≠ eid) ∧
     (∀ e ∈ c6Store.downtime_events,
       e.start_notification_id ≠ (notifRec 1).id →
       e.end_notification_id = some (notifRec 1).id →
         reopenEvent e ∈ c6After.downtime_events ∨
         ∀ m ∈ c6After.notifications,
           m.id ≠ e.start_notification_id)) :=
  ⟨by decide, by decide, by decide,
    delete_notification_reference_repairs 3 c6Store (notifRec 1) true
      c6After (by decide) (by decide) (by decide)⟩

/-! ## Consistency-check machinery (C8) -/

/-- The consistency deletion loop on an empty worklist. -/
theorem check_delete_all_nil (fuel : Nat) (st : Store) :
    check_delete_all fuel st [] = some st := rfl

/-- One step of the consistency deletion loop. -/
theorem check_delete_all_cons (fuel : Nat) (st : Store) (nid : Nat)
    (rest : List Nat) :
    check_delete_all fuel st (nid :: rest) =
      match delete_notification fuel st nid with
      | none => none
      | some bs => check_delete_all fuel bs.2 rest := rfl

/-- The consistency check decomposed into its phases. -/
theorem check_and_fix_eq (fuel : Nat) (s : Store) :
    check_and_fix_data_consistency fuel s =
      match check_delete_all fuel (consistencyPrune s)
          ((consistencyIncomplete s).map (fun n => n.id)) with
      | none => none
      | some s3 =>
        some ({ orphaned_llm_data := (consistencyOrphanLlm s).length
                orphaned_raw_email := (consistencyOrphanRaw s).length
                incomplete_notifications := (consistencyIncomplete s).length
                orphaned_impacts := (consistencyOrphanImp s3).length
                fixed_issues := (consistencyOrphanLlm s).length +
                  (consistencyOrphanRaw s).length +
                  (consistencyIncomplete s).length +
                  (consistencyOrphanImp s3).length
                errors := 0 },
              { s3 with impacts := s3.impacts.filter (fun i =>
                  s3.notifications.any
                    (fun n => n.id == i.notification_id)) }) := rfl

/-- The consistency deletion loop preserves the shrink relation and
removes every listed notification id. -/
theorem check_delete_all_inv :
    ∀ (ids : List Nat) (fuel : Nat) (st st' : Store),
      (st.notifications.map (fun m => m.id)).Nodup →
      check_delete_all fuel st ids = some st' →
      ShrinkRel st st' ∧
      ∀ nid ∈ ids, ∀ m ∈ st'.notifications, m.id ≠ nid := by
  intro ids
  induction ids with
  | nil =>
    intro fuel st st' hnd h
    rw [check_delete_all_nil] at h
    obtain rfl := Option.some.inj h
    exact ⟨shrinkRel_refl st, by simp⟩
  | cons nid rest ih =>
    intro fuel st st' hnd h
    rw [check_delete_all_cons] at h
    cases hdel : delete_notification fuel st nid with
    | none =>
      rw [hdel] at h
      cases h
    | some bs =>
      rw [hdel] at h
      obtain ⟨hrel1, hB⟩ :=
        delete_notification_inv fuel st nid bs.1 bs.2 hnd hdel
      have hnd2 : (bs.2.notifications.map (fun m => m.id)).Nodup :=
        List.Nodup.sublist (hrel1.1.1.map (fun m => m.id)) hnd
      obtain ⟨hrel2, hrem⟩ := ih fuel bs.2 st' hnd2 h
      refine ⟨shrinkRel_trans hrel1 hrel2, ?_⟩
      intro nid' hmem m hm
      rcases List.mem_cons.mp hmem with rfl | hrest
      · exact hB m (hrel2.1.1.subset hm)
      · exact hrem nid' hrest m hm

/-- On a store whose rows are mutually consistent, the consistency check
finds nothing, repairs nothing, and returns the store unchanged. -/
theorem check_and_fix_fixpoint (t : Store)
    (hllm : ∀ l ∈ t.llm_data, ∃ m ∈ t.notifications, m.llm_data_id = l.id)
    (hraw : ∀ r ∈ t.raw_emails, ∃ m ∈ t.notifications,
      m.raw_email_id = r.id)
    (hnot : ∀ m ∈ t.notifications,
      (∃ l ∈ t.llm_data, l.id = m.llm_data_id) ∧
      (∃ r ∈ t.raw_emails, r.id = m.raw_email_id))
    (himp : ∀ i ∈ t.impacts, ∃ m ∈ t.notifications,
      m.id = i.notification_id)
    (fuel : Nat) :
    check_and_fix_data_consistency fuel t = some (⟨0, 0, 0, 0, 0, 0⟩, t) := by
  have hkl : t.llm_data.filter
      (fun l => t.notifications.any (fun n => n.llm_data_id == l.id)) =
      t.llm_data := by
    refine List.filter_eq_self.mpr ?_
    intro l hl
    obtain ⟨m, hm, href⟩ := hllm l hl
    exact List.any_eq_true.mpr ⟨m, hm, by simp [href]⟩
  have hkr : t.raw_emails.filter
      (fun r => t.notifications.any (fun n => n.raw_email_id == r.id)) =
      t.raw_emails := by
    refine List.filter_eq_self.mpr ?_
    intro r hr
    obtain ⟨m, hm, href⟩ := hraw r hr
    exact List.any_eq_true.mpr ⟨m, hm, by simp [href]⟩
  have hOL : consistencyOrphanLlm t = [] := by
    refine List.filter_eq_nil_iff.mpr ?_
    intro l hl
    obtain ⟨m, hm, href⟩ := hllm l hl
    have hany : t.notifications.any (fun n => n.llm_data_id == l.id) = true :=
      List.any_eq_true.mpr ⟨m, hm, by simp [href]⟩
    simp [hany]
  have hOR : consistencyOrphanRaw t = [] := by
    refine List.filter_eq_nil_iff.mpr ?_
    intro r hr
    obtain ⟨m, hm, href⟩ := hraw r hr
    have hany : t.notifications.any (fun n => n.raw_email_id == r.id) = true :=
      List.any_eq_true.mpr ⟨m, hm, by simp [href]⟩
    simp [hany]
  have hML : consistencyMissingLlm t = [] := by
    refine List.filter_eq_nil_iff.mpr ?_
    intro n hn
    obtain ⟨⟨l, hl, hid⟩, _⟩ := hnot n hn
    rw [hkl]
    have hany : t.llm_data.any (fun l2 => l2.id == n.llm_data_id) = true :=
      List.any_eq_true.mpr ⟨l, hl, by simp [hid]⟩
    simp [hany]
  have hMR : consistencyMissingRaw t = [] := by
    refine List.filter_eq_nil_iff.mpr ?_
    intro n hn
    obtain ⟨_, ⟨r, hr, hid⟩⟩ := hnot n hn
    rw [hkr]
    have hany : t.raw_emails.any (fun r2 => r2.id == n.raw_email_id) = true :=
      List.any_eq_true.mpr ⟨r, hr, by simp [hid]⟩
    simp [hany]
  have hInc : consistencyIncomplete t = [] := by
    unfold consistencyIncomplete
    rw [hML, hMR]
    rfl
  have hprune : consistencyPrune t = t := by
    unfold consistencyPrune
    rw [hkl, hkr]
  have hOI : consistencyOrphanImp t = [] := by
    refine List.filter_eq_nil_iff.mpr ?_
    intro i hi
    obtain ⟨m, hm, href⟩ := himp i hi
    have hany : t.notifications.any (fun n => n.id == i.notification_id) = true :=
      List.any_eq_true.mpr ⟨m, hm, by simp [href]⟩
    simp [hany]
  have hki : t.impacts.filter
      (fun i => t.notifications.any (fun n => n.id == i.notification_id)) =
      t.impacts := by
    refine List.filter_eq_self.mpr ?_
    intro i hi
    obtain ⟨m, hm, href⟩ := himp i hi
    exact List.any_eq_true.mpr ⟨m, hm, by simp [href]⟩
  rw [check_and_fix_eq, hprune, hInc, List.map_nil, check_delete_all_nil]
  dsimp only
  rw [hOL, hOR, hOI, hki]
  rfl

/-- C8: starting from a store holding an extraction record owned by no
notification, one consistency run removes the orphan and reports it
(count at least 1), and a second run on the resulting store reports zero
in every category and returns the store unchanged.  The store is assumed
to use unique notification ids and unique sub-record references, which
the creation path guarantees. -/
theorem run_check_removes_orphan_and_idempotent (fuel : Nat) (s : Store)
    (l0 : LLMDataRec) (stats : ConsistencyStats) (t : Store)
    (hndN : (s.notifications.map (fun m => m.id)).Nodup)
    (hndL : (s.notifications.map (fun m => m.llm_data_id)).Nodup)
    (hndR : (s.notifications.map (fun m => m.raw_email_id)).Nodup)
    (hl0 : l0 ∈ s.llm_data)
    (horph : ∀ m ∈ s.notifications, m.llm_data_id ≠ l0.id)
    (hrun : check_and_fix_data_consistency fuel s = some (stats, t)) :
    1 ≤ stats.orphaned_llm_data ∧
    l0 ∉ t.llm_data ∧
    ∀ fuel2, check_and_fix_data_consistency fuel2 t =
      some (⟨0, 0, 0, 0, 0, 0⟩, t) := by
  rw [check_and_fix_eq] at hrun
  cases hsplit : check_delete_all fuel (consistencyPrune s)
      ((consistencyIncomplete s).map (fun n => n.id)) with
  | none =>
    rw [hsplit] at hrun
    cases hrun
  | some s3 =>
    rw [hsplit] at hrun
    simp only [Option.some.injEq, Prod.mk.injEq] at hrun
    obtain ⟨hstats, ht⟩ := hrun
    subst ht
    subst hstats
    obtain ⟨hrel, hrem⟩ := check_delete_all_inv
      ((consistencyIncomplete s).map (fun n => n.id)) fuel
      (consistencyPrune s) s3 hndN hsplit
    obtain ⟨⟨hsubN, hsubL, hsubR, hsubI⟩, _, _, hg, hlg, hrg⟩ := hrel
    have hl0orph : l0 ∈ consistencyOrphanLlm s := by
      refine List.mem_filter.mpr ⟨hl0, ?_⟩
      have hany : s.notifications.any
          (fun n => n.llm_data_id == l0.id) = false := by
        refine List.any_eq_false.mpr ?_
        intro m hm
        simp [horph m hm]
      simp [hany]
    have hcount : 1 ≤ (consistencyOrphanLlm s).length :=
      List.length_pos.mpr (List.ne_nil_of_mem hl0orph)
    have hl0gone : l0 ∉ s3.llm_data := by
      intro hmem
      have hlP : l0 ∈ s.llm_data.filter (fun l2 =>
          s.notifications.any (fun n => n.llm_data_id == l2.id)) :=
        hsubL.subset hmem
      obtain ⟨m, hm, hbeq⟩ := List.any_eq_true.mp (List.mem_filter.mp hlP).2
      exact horph m hm (by simpa using hbeq)
    have hllmT : ∀ l ∈ s3.llm_data, ∃ m ∈ s3.notifications,
        m.llm_data_id = l.id := by
      intro l hl
      have hlP : l ∈ s.llm_data.filter (fun l2 =>
          s.notifications.any (fun n => n.llm_data_id == l2.id)) :=
        hsubL.subset hl
      obtain ⟨m, hm, hbeq⟩ := List.any_eq_true.mp (List.mem_filter.mp hlP).2
      rcases hg m hm with hm3 | ⟨hlcl, _, _⟩
      · exact ⟨m, hm3, by simpa using hbeq⟩
      · exact absurd ((by simpa using hbeq :
          m.llm_data_id = l.id).symm) (hlcl l hl)
    have hrawT : ∀ r ∈ s3.raw_emails, ∃ m ∈ s3.notifications,
        m.raw_email_id = r.id := by
      intro r hr
      have hrP : r ∈ s.raw_emails.filter (fun r2 =>
          s.notifications.any (fun n => n.raw_email_id == r2.id)) :=
        hsubR.subset hr
      obtain ⟨m, hm, hbeq⟩ := List.any_eq_true.mp (List.mem_filter.mp hrP).2
      rcases hg m hm with hm3 | ⟨_, hrcl, _⟩
      · exact ⟨m, hm3, by simpa using hbeq⟩
      · exact absurd ((by simpa using hbeq :
          m.raw_email_id = r.id).symm) (hrcl r hr)
    have hnotT : ∀ m ∈ s3.notifications,
        (∃ l ∈ s3.llm_data, l.id = m.llm_data_id) ∧
        (∃ r ∈ s3.raw_emails, r.id = m.raw_email_id) := by
      intro m hm
      have hmS : m ∈ s.notifications := hsubN.subset hm
      have hmissL : m ∉ consistencyMissingLlm s := by
        intro hmem
        have hid : m.id ∈ (consistencyIncomplete s).map (fun n => n.id) :=
          List.mem_map.mpr ⟨m, List.mem_append.mpr (Or.inl hmem), rfl⟩
        exact hrem m.id hid m hm rfl
      have hmissR : m ∉ consistencyMissingRaw s := by
        intro hmem
        have hid : m.id ∈ (consistencyIncomplete s).map (fun n => n.id) :=
          List.mem_map.mpr ⟨m, List.mem_append.mpr (Or.inr hmem), rfl⟩
        exact hrem m.id hid m hm rfl
      have hanyL : (s.llm_data.filter (fun l => s.notifications.any
          (fun n2 => n2.llm_data_id == l.id))).any
          (fun l => l.id == m.llm_data_id) = true := by
        by_contra hc
        apply hmissL
        refine List.mem_filter.mpr ⟨hmS, ?_⟩
        simp only [Bool.not_eq_true] at hc
        simp [hc]
      have hfirst : (consistencyMissingLlm s).any
          (fun mm => mm == m) = false := by
        refine List.any_eq_false.mpr ?_
        intro mm hmm hbeq
        exact hmissL ((by simpa using hbeq : mm = m) ▸ hmm)
      have hanyR : (s.raw_emails.filter (fun r => s.notifications.any
          (fun n2 => n2.raw_email_id == r.id))).any
          (fun r => r.id == m.raw_email_id) = true := by
        by_contra hc
        apply hmissR
        refine List.mem_filter.mpr ⟨hmS, ?_⟩
        simp only [Bool.not_eq_true] at hc
        simp [hfirst, hc]
      constructor
      · obtain ⟨l, hlk, hbeq⟩ := List.any_eq_true.mp hanyL
        rcases hlg l hlk with hl3 | ⟨X, hX, hXref, hXgone⟩
        · exact ⟨l, hl3, by simpa using hbeq⟩
        · have hXm : X = m := List.inj_on_of_nodup_map hndL hX hmS
            (by rw [hXref]; simpa using hbeq)
          exact absurd hm (hXm ▸ hXgone)
      · obtain ⟨r, hrk, hbeq⟩ := List.any_eq_true.mp hanyR
        rcases hrg r hrk with hr3 | ⟨X, hX, hXref, hXgone⟩
        · exact ⟨r, hr3, by simpa using hbeq⟩
        · have hXm : X = m := List.inj_on_of_nodup_map hndR hX hmS
            (by rw [hXref]; simpa using hbeq)
          exact absurd hm (hXm ▸ hXgone)
    have himpT : ∀ i ∈ s3.impacts.filter (fun i =>
        s3.notifications.any (fun n => n.id == i.notification_id)),
        ∃ m ∈ s3.notifications, m.id = i.notification_id := by
      intro i hi
      obtain ⟨m, hm, hbeq⟩ := List.any_eq_true.mp (List.mem_filter.mp hi).2
      exact ⟨m, hm, by simpa using hbeq⟩
    exact ⟨hcount, hl0gone,
      fun fuel2 => check_and_fix_fixpoint
        { s3 with impacts := s3.impacts.filter (fun i =>
            s3.notifications.any (fun n => n.id == i.notification_id)) }
        hllmT hrawT hnotT himpT fuel2⟩

/-- Witness: on the store with one complete notification and the orphaned
extraction row 99, one run reports the orphan and removes it, and a second
run reports zero everywhere and changes nothing. -/
theorem run_check_removes_orphan_and_idempotent_witness :
    (c8Store.notifications.map (fun m => m.id)).Nodup ∧
    (c8Store.notifications.map (fun m => m.llm_data_id)).Nodup ∧
    (c8Store.notifications.map (fun m => m.raw_email_id)).Nodup ∧
    llmRec 99 ∈ c8Store.llm_data ∧
    (∀ m ∈ c8Store.notifications, m.llm_data_id ≠ (llmRec 99).id) ∧
    check_and_fix_data_consistency 1 c8Store =
      some (⟨1, 0, 0, 0, 1, 0⟩, c8Fixed) ∧
    (1 ≤ (⟨1, 0, 0, 0, 1, 0⟩ : ConsistencyStats).orphaned_llm_data ∧
     llmRec 99 ∉ c8Fixed.llm_data ∧
     ∀ fuel2, check_and_fix_data_consistency fuel2 c8Fixed =
       some (⟨0, 0, 0, 0, 0, 0⟩, c8Fixed)) :=
  ⟨by decide, by decide, by decide, by decide, by decide, by decide,
    run_check_removes_orphan_and_idempotent 1 c8Store (llmRec 99)
      ⟨1, 0, 0, 0, 1, 0⟩ c8Fixed (by decide) (by decide) (by decide)
      (by decide) (by decide) (by decide)⟩

end NoticeHub
